import Mathlib

/-!
Verification of the redis-operator cluster command handler
(`k8sutils/redis-cluster-cmd-handler.go`).

The Go code is shallowly embedded: every remote redis command
(`client.Process`) is resolved by an oracle (`World.proc`) indexed by the
number of commands issued so far, pod-IP lookups by `World.resolve`, and
secret lookups by `World.getPass`.  Each embedded operation threads an
`ExecState` recording, in order, the redis commands issued
(`procTrace`) and the pod-exec commands issued (`execTrace`).  Functions
that index into parsed node-table rows return `Option` results, `none`
standing for a Go index-out-of-range panic.  Fallible functions return
`Except String` results mirroring Go `error` returns.
-/

/-- A redis command sent through a client: the target pod and the argument list. -/
structure IssuedCmd where
  pod : String
  args : List String
deriving DecidableEq, Repr

/-- Instrumentation state: redis commands issued so far (`client.Process`) and
pod-exec commands issued so far (`executeCommand`). -/
structure ExecState where
  procTrace : List IssuedCmd
  execTrace : List IssuedCmd
deriving DecidableEq, Repr

/-- The external environment: outcome of each redis command (indexed by how many
redis commands were issued before it), pod-IP resolution, and password lookup. -/
structure World where
  proc : Nat → IssuedCmd → Except String String
  resolve : String → Except String String
  getPass : Except String String

/-- The fields of the RedisCluster custom resource that the handler reads:
name, namespace, per-role replica counts, optional password secret, TLS flag. -/
structure RedisCluster where
  name : String
  ns : String
  leaderReplicas : Nat
  followerReplicas : Nat
  existingPasswordSecret : Option (String × String)
  tls : Bool

/-- `RedisDetails` from the source: pod name and namespace. -/
structure RedisDetails where
  PodName : String
  Namespace : String

instance : DecidableEq (Except String String) := fun a b =>
  match a, b with
  | .ok x, .ok y =>
      if h : x = y then isTrue (by rw [h]) else isFalse (fun hh => by cases hh; exact h rfl)
  | .ok _, .error _ => isFalse (fun hh => by cases hh)
  | .error _, .ok _ => isFalse (fun hh => by cases hh)
  | .error x, .error y =>
      if h : x = y then isTrue (by rw [h]) else isFalse (fun hh => by cases hh; exact h rfl)

instance : DecidableEq (Except String Unit) := fun a b =>
  match a, b with
  | .ok _, .ok _ => isTrue rfl
  | .ok _, .error _ => isFalse (fun hh => by cases hh)
  | .error _, .ok _ => isFalse (fun hh => by cases hh)
  | .error x, .error y =>
      if h : x = y then isTrue (by rw [h]) else isFalse (fun hh => by cases hh; exact h rfl)

instance : DecidableEq (Except String (List String)) := fun a b =>
  match a, b with
  | .ok x, .ok y =>
      if h : x = y then isTrue (by rw [h]) else isFalse (fun hh => by cases hh; exact h rfl)
  | .ok _, .error _ => isFalse (fun hh => by cases hh)
  | .error _, .ok _ => isFalse (fun hh => by cases hh)
  | .error x, .error y =>
      if h : x = y then isTrue (by rw [h]) else isFalse (fun hh => by cases hh; exact h rfl)

/-- Does `needle` occur at the start of `hay`? (helper for `strContains`). -/
def startsWithChars : List Char → List Char → Bool
  | [], _ => true
  | _ :: _, [] => false
  | a :: as, b :: bs => a = b && startsWithChars as bs

/-- Does `needle` occur anywhere in `hay`? (helper for `strContains`). -/
def occursIn : List Char → List Char → Bool
  | needle, [] => startsWithChars needle []
  | needle, c :: t => startsWithChars needle (c :: t) || occursIn needle t

/-- Model of Go `strings.Contains s sub`: `sub` is a substring of `s`. -/
def strContains (s sub : String) : Bool := occursIn sub.data s.data

/-- Split a character list on a separator (model of Go `strings.Split`:
always at least one component, empty components kept). -/
def splitOnChar (sep : Char) : List Char → List (List Char)
  | [] => [[]]
  | c :: r =>
    let rest := splitOnChar sep r
    if c = sep then [] :: rest
    else (c :: rest.headD []) :: rest.tail

/-- One dotted-quad component: non-empty, at most three digits, value ≤ 255. -/
def ipPartOk (p : List Char) : Bool :=
  !p.isEmpty && p.length ≤ 3 && p.all (·.isDigit) &&
    p.foldl (fun n c => n * 10 + (c.toNat - 48)) 0 ≤ 255

/-- Model of Go `net.ParseIP(ip).To4() != nil`: the string is a dotted-quad
IPv4 address.  (The IPv4-mapped-IPv6 form is not modelled; no claim depends
on it.) -/
def isIPv4 (s : String) : Bool :=
  let parts := splitOnChar '.' s.data
  parts.length == 4 && parts.all ipPartOk

/-- Append a redis command to the proc trace. -/
def addProc (st : ExecState) (c : IssuedCmd) : ExecState :=
  ⟨st.procTrace ++ [c], st.execTrace⟩

/-- Append a pod-exec command to the exec trace. -/
def addExec (st : ExecState) (c : IssuedCmd) : ExecState :=
  ⟨st.procTrace, st.execTrace ++ [c]⟩

/-- Issue one redis command against a pod: the oracle decides the outcome
(indexed by how many redis commands have been issued so far) and the command
is recorded in the trace. -/
def processCmd (w : World) (pod : String) (args : List String) (st : ExecState) :
    Except String String × ExecState :=
  let c : IssuedCmd := ⟨pod, args⟩
  (w.proc st.procTrace.length c, addProc st c)

/-!
Model of Go `encoding/csv` reading as configured in the source:
`Comma = ' '`, `FieldsPerRecord = -1` (no per-record field-count check),
default quoting (`LazyQuotes = false`).  A field starting with `"` is quoted
(`""` escapes a quote; the closing quote must be followed by a separator,
a line end or EOF); a `"` inside a non-quoted field is an error; records end
at `\n` (or `\r\n`) or EOF; fully blank lines are skipped and produce no
record.  `ReadAll` returns nil records together with the first error,
mirroring Go (the records read before the error are discarded).
-/

/-- Read a non-quoted csv field (separator space); stops before a separator,
line end or EOF; a quote character inside the field is an error. -/
def readUnquoted (acc : List Char) : List Char → Except String (String × List Char)
  | [] => .ok (String.mk acc, [])
  | c :: r =>
    if c = ' ' ∨ c = '\n' then .ok (String.mk acc, c :: r)
    else if c = '\r' ∧ r.head? = some '\n' then .ok (String.mk acc, c :: r)
    else if c = '"' then .error "bare quote in non-quoted field"
    else readUnquoted (acc ++ [c]) r

/-- Read the body of a quoted csv field after the opening quote. -/
def readQuoted (acc : List Char) : List Char → Except String (String × List Char)
  | [] => .error "extraneous or missing quote in quoted-field"
  | c :: r =>
    if c = '"' then
      match r with
      | [] => .ok (String.mk acc, [])
      | c2 :: r2 =>
        if c2 = '"' then readQuoted (acc ++ ['"']) r2
        else if c2 = ' ' ∨ c2 = '\n' ∨ (c2 = '\r' ∧ r2.head? = some '\n') then
          .ok (String.mk acc, c2 :: r2)
        else .error "extraneous or missing quote in quoted-field"
    else readQuoted (acc ++ [c]) r

/-- Read one csv field, quoted or not.  On success the returned rest starts
with a separator, a line end, or is empty. -/
def readField (input : List Char) : Except String (String × List Char) :=
  if input.head? = some '"' then readQuoted [] input.tail
  else readUnquoted [] input

/-- Read one csv record (one fuel unit per field). -/
def readRecordAux : Nat → List Char → Except String (List String × List Char)
  | 0, _ => .error "record fuel exhausted"
  | n + 1, input =>
    match readField input with
    | .error e => .error e
    | .ok (f, rest) =>
      match rest with
      | [] => .ok ([f], [])
      | c :: r =>
        if c = ' ' then
          match readRecordAux n r with
          | .error e => .error e
          | .ok (fs, r2) => .ok (f :: fs, r2)
        else if c = '\r' then .ok ([f], r.tail)
        else .ok ([f], r)

/-- Read all csv records (one fuel unit per record or skipped blank line).
On the first record error this mirrors Go's `ReadAll`: the records read so
far are discarded and nil records are returned together with the error. -/
def readAllAux : Nat → List Char → List (List String) → List (List String) × Option String
  | 0, _, _ => ([], some "csv fuel exhausted")
  | n + 1, input, acc =>
    match input with
    | [] => (acc.reverse, none)
    | c :: r =>
      if c = '\n' then readAllAux n r acc
      else if c = '\r' ∧ r.head? = some '\n' then readAllAux n r.tail acc
      else
        match readRecordAux (input.length + 1) input with
        | .error e => ([], some e)
        | .ok (rec, rest) => readAllAux n rest (rec :: acc)

/-- Model of `csv.NewReader(...).ReadAll()` with `Comma = ' '` and
`FieldsPerRecord = -1`, as used in `checkRedisCluster` and `getNodeIds`. -/
def csvReadAll (s : String) : List (List String) × Option String :=
  readAllAux (s.data.length + 1) s.data []

/-- Modelled from the spec: `cr.Spec.GetReplicaCounts(role)` lives in the
`api/v1beta1` package, which is not part of the provided source; the spec says
the cluster specification supplies "replica counts per role" for the roles
"leader" and "follower". -/
def GetReplicaCounts (cr : RedisCluster) (role : String) : Nat :=
  match role with
  | "leader" => cr.leaderReplicas
  | "follower" => cr.followerReplicas
  | _ => 0

/-- The pod name `fmt.Sprintf("%s-%s-", cr.ObjectMeta.Name, role) + strconv.Itoa i`
used by the failover, forget and mesh-creation loops. -/
def rolePodName (cr : RedisCluster) (role : String) (i : Nat) : String :=
  cr.name ++ "-" ++ role ++ "-" ++ toString i

/-- `getRedisServerIP` from the source.  A failed pod lookup is only logged:
the pod IP then reads as `""`, which fails the IPv4 test and is therefore
rendered bracketed, so the function returns the string `"[]"` and execution
continues — no error is returned (the function has no error result). -/
def getRedisServerIP (resolve : String → Except String String) (redisInfo : RedisDetails) :
    String :=
  let redisIP :=
    match resolve redisInfo.PodName with
    | .ok ip => ip
    | .error _ => ""
  if isIPv4 redisIP then redisIP else "[" ++ redisIP ++ "]"

/-- `getRedisTLSArgs` from the source. -/
def getRedisTLSArgs (tlsConfig : Bool) (clientHost : String) : List String :=
  if tlsConfig then ["--tls", "--cacert", "/tls/ca.crt", "-h", clientHost] else []

/-- A configured redis client: the target pod and the address it resolved.
Password and TLS material only configure the transport; a failed password
lookup is logged and an empty password used, so neither affects control flow
and they are omitted from the handle. -/
structure RedisClientHandle where
  pod : String
  addr : String

/-- `configureRedisClient` from the source: resolves the pod address and
builds a throw-away client for that pod. -/
def configureRedisClient (w : World) (cr : RedisCluster) (podName : String) :
    RedisClientHandle :=
  ⟨podName, getRedisServerIP w.resolve ⟨podName, cr.ns⟩ ++ ":6379"⟩

/-- `client.Process` on a configured client. -/
def clientProcess (w : World) (cl : RedisClientHandle) (args : List String)
    (st : ExecState) : Except String String × ExecState :=
  processCmd w cl.pod args st

/-- `executeCommand` from the source (pod exec).  All of its failure modes are
logged and swallowed (the function returns nothing), so the model records the
issued command and returns. -/
def executeCommand (cmd : List String) (podName : String) (st : ExecState) : ExecState :=
  addExec st ⟨podName, cmd⟩

/-- `createRedisReplicationCommand` from the source: builds the
`redis-cli --cluster add-node` argument list (a failed password lookup is
logged and an empty password appended). -/
def createRedisReplicationCommand (w : World) (cr : RedisCluster)
    (leaderPod followerPod : RedisDetails) : List String :=
  let base := ["redis-cli", "--cluster", "add-node",
    getRedisServerIP w.resolve followerPod ++ ":6379",
    getRedisServerIP w.resolve leaderPod ++ ":6379",
    "--cluster-slave"]
  let withPass :=
    match cr.existingPasswordSecret with
    | some _ =>
      let pass := match w.getPass with | .ok p => p | .error _ => ""
      base ++ ["-a", pass]
    | none => base
  withPass ++ getRedisTLSArgs cr.tls leaderPod.PodName

/-- The output string `checkRedisCluster` feeds to the csv reader: the result
of `cluster nodes` on leader-0, or `""` when the command failed (the error is
only logged and `cmd.Result()` then yields the empty string). -/
def clusterNodesOutput (w : World) (cr : RedisCluster) (st : ExecState) : String :=
  match w.proc st.procTrace.length ⟨cr.name ++ "-leader-0", ["cluster", "nodes"]⟩ with
  | .ok s => s
  | .error _ => ""

/-- `checkRedisCluster` from the source: issue `cluster nodes` against
leader-0 and parse the output.  Command errors and parse errors are only
logged; on a parse error `ReadAll` yields nil records, so the function
returns an empty table — it has no error result. -/
def checkRedisCluster (w : World) (cr : RedisCluster) (st : ExecState) :
    List (List String) × ExecState :=
  let cl := configureRedisClient w cr (cr.name ++ "-leader-0")
  let res := clientProcess w cl ["cluster", "nodes"] st
  let output := match res.1 with | .ok s => s | .error _ => ""
  ((csvReadAll output).1, res.2)

/-- `checkRedisNodePresence` from the source: scan the node table in order;
for each row, index field 1 (`none` models the index-out-of-range panic on a
row with fewer than 2 fields), take the IP portion — what Go's
`strings.Split(node[1], ":")[0]` yields, i.e. the prefix before the first
`":"` — and compare it with the candidate; return `true` at the first
match. -/
def checkRedisNodePresence : List (List String) → String → Option Bool
  | [], _ => some false
  | node :: rest, nodeName =>
    match node.get? 1 with
    | none => none
    | some f1 =>
      if String.mk (f1.data.takeWhile (fun c => c ≠ ':')) = nodeName then some true
      else checkRedisNodePresence rest nodeName

/-- One iteration of the `ExecuteRedisReplicationCommand` loop: resolve the
follower's IP, skip it if already present in the node table, otherwise issue
the add-node command via pod exec on leader-0. -/
def replicationStep (w : World) (cr : RedisCluster) (nodes : List (List String))
    (i : Nat) (st : ExecState) : Option ExecState :=
  let followerPod : RedisDetails := ⟨cr.name ++ "-follower-" ++ toString i, cr.ns⟩
  let leaderPod : RedisDetails := ⟨cr.name ++ "-leader-" ++ toString i, cr.ns⟩
  let podIP := getRedisServerIP w.resolve followerPod
  match checkRedisNodePresence nodes podIP with
  | none => none
  | some true => some st
  | some false =>
    let cmd := createRedisReplicationCommand w cr leaderPod followerPod
    some (executeCommand cmd (cr.name ++ "-leader-0") st)

/-- `ExecuteRedisReplicationCommand` from the source: read the topology once
from leader-0, then for each follower ordinal run `replicationStep`. -/
def ExecuteRedisReplicationCommand (w : World) (cr : RedisCluster) : Option ExecState :=
  let checked := checkRedisCluster w cr ⟨[], []⟩
  (List.range (GetReplicaCounts cr "follower")).foldlM
    (fun st i => replicationStep w cr checked.1 i st) checked.2

/-- The tail of the per-node failover body (source lines 364-374): the reset
command is processed a second time, unconditionally; a failure there is
returned, otherwise `cmd.Result()` yields the payload, which is logged. -/
def failoverSecondReset (w : World) (cl : RedisClientHandle) (st : ExecState) :
    Except String Unit × ExecState :=
  let r := clientProcess w cl ["cluster", "reset"] st
  match r.1 with
  | .error e => (.error e, r.2)
  | .ok _ => (.ok (), r.2)

/-- The per-node body of `executeFailoverCommand`: process `cluster reset`;
on failure process `flushall`, returning the flush error if that also fails;
then (in every surviving path) fall through to the unconditional second
`client.Process(cmd)` of the same reset command. -/
def failoverNode (w : World) (cl : RedisClientHandle) (st : ExecState) :
    Except String Unit × ExecState :=
  let r1 := clientProcess w cl ["cluster", "reset"] st
  match r1.1 with
  | .error _ =>
    let r2 := clientProcess w cl ["flushall"] r1.2
    match r2.1 with
    | .error e => (.error e, r2.2)
    | .ok _ => failoverSecondReset w cl r2.2
  | .ok _ => failoverSecondReset w cl r1.2

/-- The pod loop of `executeFailoverCommand`: process the given ordinals in
order, stopping at (and returning) the first per-node error. -/
def failoverLoop (w : World) (cr : RedisCluster) (role : String) :
    List Nat → ExecState → Except String Unit × ExecState
  | [], st => (.ok (), st)
  | i :: rest, st =>
    let cl := configureRedisClient w cr (rolePodName cr role i)
    match failoverNode w cl st with
    | (.error e, st') => (.error e, st')
    | (.ok _, st') => failoverLoop w cr role rest st'

/-- `executeFailoverCommand` from the source. -/
def executeFailoverCommand (w : World) (cr : RedisCluster) (role : String)
    (st : ExecState) : Except String Unit × ExecState :=
  failoverLoop w cr role (List.range (GetReplicaCounts cr role)) st

/-- `ExecuteFailoverOperation` from the source: leaders first; a leader-phase
error returns before any follower command is issued. -/
def ExecuteFailoverOperation (w : World) (cr : RedisCluster) :
    Except String Unit × ExecState :=
  match executeFailoverCommand w cr "leader" ⟨[], []⟩ with
  | (.error e, st) => (.error e, st)
  | (.ok _, st) =>
    match executeFailoverCommand w cr "follower" st with
    | (.error e, st') => (.error e, st')
    | (.ok _, st') => (.ok (), st')

/-- Field 0 of every row, in order (`none` models the index-out-of-range
panic on a row with no fields). -/
def nodeIdsOfTable : List (List String) → Option (List String)
  | [] => some []
  | r :: rest =>
    match r.get? 0 with
    | none => none
    | some nid => (nodeIdsOfTable rest).map (nid :: ·)

/-- `getNodeIds` from the source: parse the `cluster nodes` output; a parse
error is returned (`.error`), otherwise field 0 of each row is collected. -/
def getNodeIds (nodesResult : String) : Option (Except String (List String)) :=
  match csvReadAll nodesResult with
  | (_, some e) => some (.error e)
  | (recs, none) => (nodeIdsOfTable recs).map .ok

/-- The forget loop of `executeClusterForget`: issue `CLUSTER FORGET` for
every node id; the result of each `client.Process` is discarded, so a forget
failure neither stops the loop nor produces an error. -/
def forgetLoopCmds (w : World) (cl : RedisClientHandle) :
    List String → ExecState → ExecState
  | [], st => st
  | nid :: rest, st =>
    forgetLoopCmds w cl rest (clientProcess w cl ["CLUSTER", "FORGET", nid] st).2

/-- The tail of the per-node forget body: parse the node ids (a parse error
is returned) and issue the best-effort forget commands. -/
def forgetNodeIdsPhase (w : World) (nodesResult : String) (cl : RedisClientHandle)
    (st : ExecState) : Option (Except String Unit × ExecState) :=
  match getNodeIds nodesResult with
  | none => none
  | some (.error e) => some (.error e, st)
  | some (.ok nodeIds) => some (.ok (), forgetLoopCmds w cl nodeIds st)

/-- The per-node body of `executeClusterForget`: read `cluster nodes` (a
failure is returned and aborts), issue a takeover failover first if the node
sees itself as a slave (a failure there is returned), then forget every
listed node id best-effort. -/
def forgetNode (w : World) (cr : RedisCluster) (pod : String) (st : ExecState) :
    Option (Except String Unit × ExecState) :=
  let cl := configureRedisClient w cr pod
  let r := clientProcess w cl ["cluster", "nodes"] st
  match r.1 with
  | .error e => some (.error e, r.2)
  | .ok nodesResult =>
    if strContains nodesResult "myself,slave" then
      let r2 := clientProcess w cl ["CLUSTER", "FAILOVER", "TAKEOVER"] r.2
      match r2.1 with
      | .error e => some (.error e, r2.2)
      | .ok _ => forgetNodeIdsPhase w nodesResult cl r2.2
    else forgetNodeIdsPhase w nodesResult cl r.2

/-- The pod loop of `executeClusterForget`. -/
def forgetLoop (w : World) (cr : RedisCluster) (role : String) :
    List Nat → ExecState → Option (Except String Unit × ExecState)
  | [], st => some (.ok (), st)
  | i :: rest, st =>
    match forgetNode w cr (rolePodName cr role i) st with
    | none => none
    | some (.error e, st') => some (.error e, st')
    | some (.ok _, st') => forgetLoop w cr role rest st'

/-- `executeClusterForget` from the source. -/
def executeClusterForget (w : World) (cr : RedisCluster) (role : String)
    (st : ExecState) : Option (Except String Unit × ExecState) :=
  forgetLoop w cr role (List.range (GetReplicaCounts cr role)) st

/-- The ordinals `rootPod + 1 .. count - 1` visited by the inner mesh loop. -/
def innerMeetRange (rootPod count : Nat) : List Nat :=
  List.range' (rootPod + 1) (count - 1 - rootPod)

/-- The inner loop of `executeMasterClusterCreation`: from `rootPod`'s client,
resolve each later leader's IP and issue `cluster meet ip 6379`; the result
of `client.Process` is only logged. -/
def meetInner (w : World) (cr : RedisCluster) (cl : RedisClientHandle) :
    List Nat → ExecState → ExecState
  | [], st => st
  | j :: rest, st =>
    let ip := getRedisServerIP w.resolve ⟨rolePodName cr "leader" j, cr.ns⟩
    meetInner w cr cl rest (clientProcess w cl ["cluster", "meet", ip, "6379"] st).2

/-- The outer loop of `executeMasterClusterCreation`. -/
def meetOuter (w : World) (cr : RedisCluster) : List Nat → ExecState → ExecState
  | [], st => st
  | i :: rest, st =>
    let cl := configureRedisClient w cr (rolePodName cr "leader" i)
    meetOuter w cr rest
      (meetInner w cr cl (innerMeetRange i (GetReplicaCounts cr "leader")) st)

/-- `executeMasterClusterCreation` from the source: for root ordinals
`0 .. count-2` and each later ordinal up to `count-1`, issue `cluster meet`
from the root's client.  The function returns no error. -/
def executeMasterClusterCreation (w : World) (cr : RedisCluster) (st : ExecState) :
    ExecState :=
  meetOuter w cr (List.range (GetReplicaCounts cr "leader" - 1)) st

/-- `ExecuteGracefulFailOverOperation` from the source: forget leaders, then
followers (either failure is returned); then rebuild the mesh (errors only
logged) and re-run the follower failover command, whose error result is
discarded; finally return nil. -/
def ExecuteGracefulFailOverOperation (w : World) (cr : RedisCluster) :
    Option (Except String Unit × ExecState) :=
  match executeClusterForget w cr "leader" ⟨[], []⟩ with
  | none => none
  | some (.error e, st) => some (.error e, st)
  | some (.ok _, st) =>
    match executeClusterForget w cr "follower" st with
    | none => none
    | some (.error e, st') => some (.error e, st')
    | some (.ok _, st') =>
      let st2 := executeMasterClusterCreation w cr st'
      let r := executeFailoverCommand w cr "follower" st2
      some (.ok (), r.2)

/-- The counting loop of `CheckRedisNodeCount` for a non-empty role filter:
index field 2 of every row (`none` models the panic on a row with fewer than
3 fields) and count rows whose flags contain the mapped role substring. -/
def countRole (redisNodeType : String) : List (List String) → Option Nat
  | [] => some 0
  | node :: rest =>
    match node.get? 2 with
    | none => none
    | some f2 =>
      if strContains f2 redisNodeType then (countRole redisNodeType rest).map (· + 1)
      else countRole redisNodeType rest

/-- The body of `CheckRedisNodeCount` after the topology read: map the role
name, then either count matching rows (non-empty filter) or return the row
count. -/
def countNodesOfType (clusterNodes : List (List String)) (nodeType : String) :
    Option Nat :=
  let redisNodeType :=
    match nodeType with
    | "leader" => "master"
    | "follower" => "slave"
    | _ => nodeType
  if nodeType ≠ "" then countRole redisNodeType clusterNodes
  else some clusterNodes.length

/-- `CheckRedisNodeCount` from the source. -/
def CheckRedisNodeCount (w : World) (cr : RedisCluster) (nodeType : String) :
    Option Nat :=
  countNodesOfType (checkRedisCluster w cr ⟨[], []⟩).1 nodeType

/-- The counting loop of `CheckRedisClusterState`: for every row evaluate
`strings.Contains(node[2], "fail") || strings.Contains(node[7], "disconnected")`
with Go's short-circuit `||` — field 7 is only indexed when field 2 does not
contain "fail".  `none` models the index-out-of-range panic. -/
def countUnhealthy : List (List String) → Option Nat
  | [] => some 0
  | node :: rest =>
    match node.get? 2 with
    | none => none
    | some f2 =>
      if strContains f2 "fail" then (countUnhealthy rest).map (· + 1)
      else
        match node.get? 7 with
        | none => none
        | some f7 =>
          if strContains f7 "disconnected" then (countUnhealthy rest).map (· + 1)
          else countUnhealthy rest

/-- `CheckRedisClusterState` from the source. -/
def CheckRedisClusterState (w : World) (cr : RedisCluster) : Option Nat :=
  countUnhealthy (checkRedisCluster w cr ⟨[], []⟩).1

/-- `recoverCluster` from the source: fetch the custom resource (a fetch
error is returned), then run the graceful failover operation and return its
error result. -/
def recoverCluster (fetch : Except String RedisCluster) (w : World) :
    Option (Except String Unit) :=
  match fetch with
  | .error e => some (.error e)
  | .ok cr => (ExecuteGracefulFailOverOperation w cr).map (·.1)

/-- `resetClusterHandler` from the source: HTTP status 500 with the error
body when recovery failed, status 200 with `"OK"` when it succeeded. -/
def resetClusterHandler (fetch : Except String RedisCluster) (w : World) :
    Option (Nat × String) :=
  match recoverCluster fetch w with
  | none => none
  | some (.error e) => some (500, e)
  | some (.ok _) => some (200, "OK")

/-- The lexicographically ascending enumeration of the unordered pairs
`{i, j}` with `i < j < n`, as visited by `executeMasterClusterCreation`. -/
def ascPairs (n : Nat) : List (Nat × Nat) :=
  (List.range (n - 1)).flatMap fun i => (innerMeetRange i n).map fun j => (i, j)

/-- The meet command the mesh rebuild issues for the pair `(i, j)`. -/
def meetCmdFor (w : World) (cr : RedisCluster) (p : Nat × Nat) : IssuedCmd :=
  ⟨rolePodName cr "leader" p.1,
   ["cluster", "meet",
    getRedisServerIP w.resolve ⟨rolePodName cr "leader" p.2, cr.ns⟩, "6379"]⟩

/-- Strict lexicographic order on ordinal pairs (the "strictly ascending-pair
order" of the mesh rebuild). -/
def pairLt (p q : Nat × Nat) : Prop :=
  p.1 < q.1 ∨ (p.1 = q.1 ∧ p.2 < q.2)

/-- A character that is plain csv field data: not a separator, line end,
carriage return or quote. -/
def cleanChar (c : Char) : Prop :=
  c ≠ ' ' ∧ c ≠ '\n' ∧ c ≠ '\r' ∧ c ≠ '"'

/-- A non-empty token of plain field data. -/
def cleanToken (t : String) : Prop :=
  t ≠ "" ∧ ∀ c ∈ t.data, cleanChar c

/-- A well-formed node-table row: at least one token, all tokens clean.
The number of tokens per row is unconstrained — rows of different widths are
well-formed side by side. -/
def wfRow (r : List String) : Prop :=
  r ≠ [] ∧ ∀ t ∈ r, cleanToken t

/-- A well-formed node table: every row well-formed (possibly no rows). -/
def wfRows (rows : List (List String)) : Prop :=
  ∀ r ∈ rows, wfRow r

/-- Render one row as a space-separated line. -/
def joinTokens : List String → List Char
  | [] => []
  | [t] => t.data
  | t :: ts => t.data ++ ' ' :: joinTokens ts

/-- Render a table as newline-separated lines. -/
def renderRows : List (List String) → List Char
  | [] => []
  | [r] => joinTokens r
  | r :: rs => joinTokens r ++ '\n' :: renderRows rs

/-- Drop one leading newline, if present. -/
def dropNl (l : List Char) : List Char :=
  match l with
  | [] => []
  | c :: r => if c = '\n' then r else c :: r

/-- Row predicate counted by `CheckRedisClusterState` (a row matching both
conditions is counted once). -/
def unhealthyRow (r : List String) : Bool :=
  strContains ((r.get? 2).getD "") "fail" || strContains ((r.get? 7).getD "") "disconnected"

/-- Two worlds that may disagree only on the outcomes of `CLUSTER FORGET`
commands (the only commands whose second argument is `"FORGET"`), and agree
on address resolution. -/
def AgreeExceptForget (w₁ w₂ : World) : Prop :=
  w₁.resolve = w₂.resolve ∧
    ∀ t c, c.args.get? 1 ≠ some "FORGET" → w₁.proc t c = w₂.proc t c

/-- World for the forced-failover fallback scenario: the first command (the
first reset) fails, `flushall` succeeds, and every later command succeeds. -/
def wReset1 : World :=
  ⟨fun t c => if c.args = ["flushall"] then .ok "OK"
    else if t = 0 then .error "reset boom" else .ok "OK",
   fun _ => .ok "10.0.0.1", .ok ""⟩

/-- A one-leader, zero-follower cluster. -/
def crOneLeader : RedisCluster := ⟨"rc", "ns", 1, 0, none, false⟩

/-- World whose `cluster nodes` output is not parseable as tabular text. -/
def wBadParse : World :=
  ⟨fun _ c => if c.args = ["cluster", "nodes"] then .ok "ab\"c" else .ok "OK",
   fun _ => .ok "10.0.0.1", .ok ""⟩

/-- World in which every pod-IP lookup fails. -/
def wNoPod : World :=
  ⟨fun _ _ => .ok "OK", fun _ => .error "pod not found", .ok ""⟩

/-- A two-leader, zero-follower cluster. -/
def crTwoLeaders : RedisCluster := ⟨"r", "ns", 2, 0, none, false⟩

/-- World for the forced-failover ordering scenario: leader 0 succeeds
(commands 0 and 1), then leader 1's reset and flushall both fail. -/
def wLeader1Fails : World :=
  ⟨fun t c => if t ≤ 1 then .ok "OK"
    else if c.args = ["flushall"] then .error "flush boom" else .error "reset down",
   fun _ => .ok "10.0.0.1", .ok ""⟩

/-- A two-leader, one-follower cluster. -/
def crTwoOne : RedisCluster := ⟨"rc", "ns", 2, 1, none, false⟩

/-- A one-leader, one-follower cluster. -/
def crOneOne : RedisCluster := ⟨"g", "ns", 1, 1, none, false⟩

/-- World for the replication-idempotence scenario: the topology read lists
both the leader's and the follower's resolved IPs. -/
def wAllPresent : World :=
  ⟨fun _ c => if c.args = ["cluster", "nodes"] then
      .ok "id1 10.0.0.1:6379@16379 master - 0 0 1 connected\nid2 10.0.0.9:6379@16379 slave id1 0 0 1 connected"
    else .ok "OK",
   fun p => if p = "g-follower-0" then .ok "10.0.0.9" else .ok "10.0.0.1", .ok ""⟩

/-- World in which every command succeeds. -/
def wAllOk : World := ⟨fun _ _ => .ok "OK", fun _ => .ok "10.0.0.1", .ok ""⟩

/-- A three-leader, zero-follower cluster. -/
def crThreeLeaders : RedisCluster := ⟨"m", "ns", 3, 0, none, false⟩

/-- World whose `cluster nodes` output is the spec's two-row scenario table
(one healthy master with a slot range, one failed master without one). -/
def wScenario : World :=
  ⟨fun _ c => if c.args = ["cluster", "nodes"] then
      .ok "id1 10.0.0.1:6379@16379 master - 0 0 1 connected 0-5460\nid2 10.0.0.2:6379@16379 master,fail - 0 0 2 connected"
    else .ok "OK",
   fun _ => .ok "10.0.0.1", .ok ""⟩

/-- World in which every `cluster nodes` read fails. -/
def wReadFails : World :=
  ⟨fun _ c => if c.args = ["cluster", "nodes"] then .error "node down" else .ok "OK",
   fun _ => .ok "10.0.0.1", .ok ""⟩

/-- World whose reads return a one-row table and all other commands succeed. -/
def wForgetBase : World :=
  ⟨fun _ c => if c.args = ["cluster", "nodes"] then
      .ok "id1 10.0.0.1:6379@16379 myself,master - 0 0 1 connected"
    else .ok "OK",
   fun _ => .ok "10.0.0.1", .ok ""⟩

/-- `wForgetBase` with every `CLUSTER FORGET` command failing instead. -/
def wForgetFail : World :=
  ⟨fun t c => if c.args.get? 1 = some "FORGET" then .error "refused"
    else wForgetBase.proc t c,
   wForgetBase.resolve, wForgetBase.getPass⟩

/-- World for the graceful-recovery scenario: both forget-phase reads return
a parseable table (no `myself,slave`), and every other command — every
forget, every meet, the follower reset and the flushall — fails. -/
def wGraceful : World :=
  ⟨fun _ c => if c.args = ["cluster", "nodes"] then
      .ok "id1 10.0.0.1:6379@16379 myself,master - 0 0 1 connected\nid2 10.0.0.2:6379@16379 master - 0 0 2 connected"
    else .error "down",
   fun _ => .ok "10.0.0.1", .ok ""⟩

/-- World in which every command fails. -/
def wAllFail : World := ⟨fun _ _ => .error "down", fun _ => .ok "10.0.0.1", .ok ""⟩

/-- World in which every reset fails and every flushall succeeds. -/
def wResetFails : World :=
  ⟨fun _ c => if c.args = ["flushall"] then .ok "OK" else .error "reset boom",
   fun _ => .ok "10.0.0.1", .ok ""⟩

/-- World in which the leader's `cluster nodes` read returns a parseable
two-row table but the follower's `cluster nodes` read fails. -/
def wFollowerReadFails : World :=
  ⟨fun _ c => if c.args = ["cluster", "nodes"] then
      (if c.pod = "g-follower-0" then .error "follower down"
       else .ok "id1 10.0.0.1:6379@16379 myself,master - 0 0 1 connected\nid2 10.0.0.2:6379@16379 master - 0 0 2 connected")
    else .ok "OK",
   fun _ => .ok "10.0.0.1", .ok ""⟩

/-! ### Helper lemmas -/

theorem rolePodName_leader_ne_follower (cr cr2 : RedisCluster) (hnm : cr.name = cr2.name)
    (i j : Nat) : rolePodName cr "leader" i ≠ rolePodName cr2 "follower" j := by
  intro h
  have hd := congrArg String.data h
  simp only [rolePodName, String.data_append, hnm, List.append_assoc] at hd
  have hd2 := List.append_cancel_left hd
  simp at hd2

theorem meetInner_trace (w : World) (cr : RedisCluster) (cl : RedisClientHandle)
    (js : List Nat) (st : ExecState) :
    meetInner w cr cl js st =
      ⟨st.procTrace ++ js.map (fun j => ⟨cl.pod,
        ["cluster", "meet",
         getRedisServerIP w.resolve ⟨rolePodName cr "leader" j, cr.ns⟩, "6379"]⟩),
       st.execTrace⟩ := by
  induction js generalizing st with
  | nil => simp [meetInner]
  | cons j rest ih => simp [meetInner, clientProcess, processCmd, addProc, ih]

theorem meetOuter_trace (w : World) (cr : RedisCluster) (is : List Nat) (st : ExecState) :
    meetOuter w cr is st =
      ⟨st.procTrace ++ is.flatMap (fun i =>
        (innerMeetRange i (GetReplicaCounts cr "leader")).map (fun j => meetCmdFor w cr (i, j))),
       st.execTrace⟩ := by
  induction is generalizing st with
  | nil => simp [meetOuter]
  | cons i rest ih =>
    simp [meetOuter, meetInner_trace, ih, configureRedisClient, meetCmdFor]

theorem masterCreation_trace (w : World) (cr : RedisCluster) (st : ExecState) :
    executeMasterClusterCreation w cr st =
      ⟨st.procTrace ++ (ascPairs (GetReplicaCounts cr "leader")).map (meetCmdFor w cr),
       st.execTrace⟩ := by
  rw [executeMasterClusterCreation, meetOuter_trace, ascPairs, List.map_flatMap]
  apply congrArg (fun l => ExecState.mk (st.procTrace ++ l) st.execTrace)
  apply List.flatMap_congr
  intro i _
  simp [Function.comp]

theorem mem_ascPairs (n : Nat) (p : Nat × Nat) : p ∈ ascPairs n ↔ p.1 < p.2 ∧ p.2 < n := by
  obtain ⟨a, b⟩ := p
  simp only [ascPairs, innerMeetRange, List.mem_flatMap, List.mem_map, List.mem_range,
    List.mem_range'_1, Prod.mk.injEq]
  constructor
  · rintro ⟨i, hi, j, ⟨hj1, hj2⟩, rfl, rfl⟩
    omega
  · rintro ⟨hab, hbn⟩
    exact ⟨a, by omega, b, ⟨by omega, by omega⟩, rfl, rfl⟩

theorem ascPairs_pairwise (n : Nat) : List.Pairwise pairLt (ascPairs n) := by
  rw [ascPairs, List.pairwise_flatMap]
  constructor
  · intro a _
    rw [List.pairwise_map]
    exact (List.pairwise_lt_range' _ _).imp (fun h => Or.inr ⟨rfl, h⟩)
  · apply (List.pairwise_lt_range _).imp
    intro a b hab
    intro x hx y hy
    rw [List.mem_map] at hx hy
    obtain ⟨jx, _, rfl⟩ := hx
    obtain ⟨jy, _, rfl⟩ := hy
    exact Or.inl hab

theorem ascPairs_nodup (n : Nat) : (ascPairs n).Nodup :=
  (ascPairs_pairwise n).imp (fun h => by
    rintro rfl
    rcases h with h | ⟨_, h⟩ <;> exact absurd h (lt_irrefl _))

theorem failoverNode_trace (w : World) (cl : RedisClientHandle) (st : ExecState) :
    ∃ tail, (failoverNode w cl st).2 = ⟨st.procTrace ++ tail, st.execTrace⟩ ∧
      ∀ c ∈ tail, c.pod = cl.pod := by
  simp only [failoverNode, failoverSecondReset, clientProcess, processCmd, addProc,
    List.length_append, List.length_cons, List.length_nil]
  cases h1 : w.proc st.procTrace.length ⟨cl.pod, ["cluster", "reset"]⟩ with
  | error e1 =>
    cases h2 : w.proc (st.procTrace.length + 1) ⟨cl.pod, ["flushall"]⟩ with
    | error e2 =>
      exact ⟨[⟨cl.pod, ["cluster", "reset"]⟩, ⟨cl.pod, ["flushall"]⟩], by simp, by simp⟩
    | ok s2 =>
      cases h3 : w.proc (st.procTrace.length + 1 + 1) ⟨cl.pod, ["cluster", "reset"]⟩ with
      | error e3 =>
        exact ⟨[⟨cl.pod, ["cluster", "reset"]⟩, ⟨cl.pod, ["flushall"]⟩,
          ⟨cl.pod, ["cluster", "reset"]⟩], by simp, by simp⟩
      | ok s3 =>
        exact ⟨[⟨cl.pod, ["cluster", "reset"]⟩, ⟨cl.pod, ["flushall"]⟩,
          ⟨cl.pod, ["cluster", "reset"]⟩], by simp, by simp⟩
  | ok s1 =>
    cases h3 : w.proc (st.procTrace.length + 1) ⟨cl.pod, ["cluster", "reset"]⟩ with
    | error e3 =>
      exact ⟨[⟨cl.pod, ["cluster", "reset"]⟩, ⟨cl.pod, ["cluster", "reset"]⟩], by simp, by simp⟩
    | ok s3 =>
      exact ⟨[⟨cl.pod, ["cluster", "reset"]⟩, ⟨cl.pod, ["cluster", "reset"]⟩], by simp, by simp⟩

theorem failoverLoop_trace (w : World) (cr : RedisCluster) (role : String)
    (l : List Nat) (st : ExecState) :
    ∃ tail, (failoverLoop w cr role l st).2 = ⟨st.procTrace ++ tail, st.execTrace⟩ ∧
      ∀ c ∈ tail, ∃ i, c.pod = rolePodName cr role i := by
  induction l generalizing st with
  | nil => exact ⟨[], by simp [failoverLoop], by simp⟩
  | cons i rest ih =>
    obtain ⟨t1, h1, hp1⟩ :=
      failoverNode_trace w (configureRedisClient w cr (rolePodName cr role i)) st
    rcases hr : failoverNode w (configureRedisClient w cr (rolePodName cr role i)) st
      with ⟨res, st'⟩
    rw [hr] at h1
    replace h1 : st' = ⟨st.procTrace ++ t1, st.execTrace⟩ := h1
    cases res with
    | error e =>
      refine ⟨t1, ?_, fun c hc => ⟨i, hp1 c hc⟩⟩
      have hstep : failoverLoop w cr role (i :: rest) st = (.error e, st') := by
        simp [failoverLoop, hr]
      rw [hstep]
      exact h1
    | ok u =>
      obtain ⟨t2, h2, hp2⟩ := ih st'
      refine ⟨t1 ++ t2, ?_, ?_⟩
      · have hstep : failoverLoop w cr role (i :: rest) st = failoverLoop w cr role rest st' := by
          simp [failoverLoop, hr]
        rw [hstep, h2, h1]
        simp [List.append_assoc]
      · intro c hc
        rcases List.mem_append.mp hc with h | h
        · exact ⟨i, hp1 c h⟩
        · exact hp2 c h

theorem failoverNode_flush_fail (w : World) (cl : RedisClientHandle) (st : ExecState)
    (e1 e2 : String)
    (h1 : w.proc st.procTrace.length ⟨cl.pod, ["cluster", "reset"]⟩ = .error e1)
    (h2 : w.proc (st.procTrace.length + 1) ⟨cl.pod, ["flushall"]⟩ = .error e2) :
    failoverNode w cl st = (.error e2,
      ⟨st.procTrace ++ [⟨cl.pod, ["cluster", "reset"]⟩, ⟨cl.pod, ["flushall"]⟩],
       st.execTrace⟩) := by
  simp [failoverNode, failoverSecondReset, clientProcess, processCmd, addProc, h1, h2]

theorem failoverNode_flush_ok_second_fail (w : World) (cl : RedisClientHandle)
    (st : ExecState) (e1 s2 e3 : String)
    (h1 : w.proc st.procTrace.length ⟨cl.pod, ["cluster", "reset"]⟩ = .error e1)
    (h2 : w.proc (st.procTrace.length + 1) ⟨cl.pod, ["flushall"]⟩ = .ok s2)
    (h3 : w.proc (st.procTrace.length + 1 + 1) ⟨cl.pod, ["cluster", "reset"]⟩ = .error e3) :
    failoverNode w cl st = (.error e3,
      ⟨st.procTrace ++ [⟨cl.pod, ["cluster", "reset"]⟩, ⟨cl.pod, ["flushall"]⟩,
        ⟨cl.pod, ["cluster", "reset"]⟩], st.execTrace⟩) := by
  simp [failoverNode, failoverSecondReset, clientProcess, processCmd, addProc, h1, h2, h3]

theorem failoverNode_flush_ok_second_ok (w : World) (cl : RedisClientHandle)
    (st : ExecState) (e1 s2 s3 : String)
    (h1 : w.proc st.procTrace.length ⟨cl.pod, ["cluster", "reset"]⟩ = .error e1)
    (h2 : w.proc (st.procTrace.length + 1) ⟨cl.pod, ["flushall"]⟩ = .ok s2)
    (h3 : w.proc (st.procTrace.length + 1 + 1) ⟨cl.pod, ["cluster", "reset"]⟩ = .ok s3) :
    failoverNode w cl st = (.ok (),
      ⟨st.procTrace ++ [⟨cl.pod, ["cluster", "reset"]⟩, ⟨cl.pod, ["flushall"]⟩,
        ⟨cl.pod, ["cluster", "reset"]⟩], st.execTrace⟩) := by
  simp [failoverNode, failoverSecondReset, clientProcess, processCmd, addProc, h1, h2, h3]

theorem failoverLoop_cons_error (w : World) (cr : RedisCluster) (role : String)
    (i : Nat) (rest : List Nat) (st : ExecState) (e : String) (st' : ExecState)
    (h : failoverNode w (configureRedisClient w cr (rolePodName cr role i)) st
      = (.error e, st')) :
    failoverLoop w cr role (i :: rest) st = (.error e, st') := by
  simp [failoverLoop, h]

theorem forgetLoopCmds_trace (w : World) (cl : RedisClientHandle) (ids : List String)
    (st : ExecState) :
    forgetLoopCmds w cl ids st =
      ⟨st.procTrace ++ ids.map (fun nid => ⟨cl.pod, ["CLUSTER", "FORGET", nid]⟩),
       st.execTrace⟩ := by
  induction ids generalizing st with
  | nil => simp [forgetLoopCmds]
  | cons nid rest ih => simp [forgetLoopCmds, clientProcess, processCmd, addProc, ih]

theorem forgetNodeIdsPhase_agree (w₁ w₂ : World) (s : String)
    (cl₁ cl₂ : RedisClientHandle) (hp : cl₁.pod = cl₂.pod) (st : ExecState) :
    forgetNodeIdsPhase w₁ s cl₁ st = forgetNodeIdsPhase w₂ s cl₂ st := by
  simp only [forgetNodeIdsPhase]
  cases getNodeIds s with
  | none => rfl
  | some r =>
    cases r with
    | error e => rfl
    | ok ids => simp [forgetLoopCmds_trace, hp]

theorem forgetNode_agree (w₁ w₂ : World) (cr : RedisCluster) (pod : String)
    (st : ExecState) (h : AgreeExceptForget w₁ w₂) :
    forgetNode w₁ cr pod st = forgetNode w₂ cr pod st := by
  obtain ⟨hres, hproc⟩ := h
  have hread := hproc st.procTrace.length ⟨pod, ["cluster", "nodes"]⟩ (by simp)
  simp only [forgetNode, clientProcess, processCmd, addProc, configureRedisClient]
  rw [hread]
  cases h1 : w₂.proc st.procTrace.length ⟨pod, ["cluster", "nodes"]⟩ with
  | error e => rfl
  | ok s =>
    cases hms : strContains s "myself,slave" with
    | false =>
      simp only [hms, Bool.false_eq_true, if_false]
      exact forgetNodeIdsPhase_agree w₁ w₂ s
        ⟨pod, getRedisServerIP w₁.resolve ⟨pod, cr.ns⟩ ++ ":6379"⟩
        ⟨pod, getRedisServerIP w₂.resolve ⟨pod, cr.ns⟩ ++ ":6379"⟩ rfl _
    | true =>
      simp only [hms, eq_self_iff_true, if_true]
      have htk := hproc (st.procTrace.length + 1)
        ⟨pod, ["CLUSTER", "FAILOVER", "TAKEOVER"]⟩ (by simp)
      simp only [List.length_append, List.length_cons, List.length_nil]
      rw [htk]
      cases h2 : w₂.proc (st.procTrace.length + 1) ⟨pod, ["CLUSTER", "FAILOVER", "TAKEOVER"]⟩ with
      | error e => rfl
      | ok s2 =>
        exact forgetNodeIdsPhase_agree w₁ w₂ s
          ⟨pod, getRedisServerIP w₁.resolve ⟨pod, cr.ns⟩ ++ ":6379"⟩
          ⟨pod, getRedisServerIP w₂.resolve ⟨pod, cr.ns⟩ ++ ":6379"⟩ rfl _

theorem forgetLoop_agree (w₁ w₂ : World) (cr : RedisCluster) (role : String)
    (l : List Nat) (st : ExecState) (h : AgreeExceptForget w₁ w₂) :
    forgetLoop w₁ cr role l st = forgetLoop w₂ cr role l st := by
  induction l generalizing st with
  | nil => rfl
  | cons i rest ih =>
    simp only [forgetLoop, forgetNode_agree w₁ w₂ cr (rolePodName cr role i) st h]
    cases forgetNode w₂ cr (rolePodName cr role i) st with
    | none => rfl
    | some p =>
      rcases p with ⟨res, st'⟩
      cases res with
      | error e => rfl
      | ok u => exact ih st'

theorem executeClusterForget_agree (w₁ w₂ : World) (cr : RedisCluster) (role : String)
    (st : ExecState) (h : AgreeExceptForget w₁ w₂) :
    executeClusterForget w₁ cr role st = executeClusterForget w₂ cr role st :=
  forgetLoop_agree w₁ w₂ cr role _ st h

theorem forgetNode_read_error (w : World) (cr : RedisCluster) (pod : String)
    (st : ExecState) (e : String)
    (h : w.proc st.procTrace.length ⟨pod, ["cluster", "nodes"]⟩ = .error e) :
    forgetNode w cr pod st =
      some (.error e, ⟨st.procTrace ++ [⟨pod, ["cluster", "nodes"]⟩], st.execTrace⟩) := by
  simp [forgetNode, clientProcess, processCmd, addProc, configureRedisClient, h]

theorem forgetNode_ok_forgets (w : World) (cr : RedisCluster) (pod : String)
    (st : ExecState) (s : String) (ids : List String)
    (hread : w.proc st.procTrace.length ⟨pod, ["cluster", "nodes"]⟩ = .ok s)
    (hms : strContains s "myself,slave" = false)
    (hids : getNodeIds s = some (.ok ids)) :
    forgetNode w cr pod st = some (.ok (),
      ⟨st.procTrace ++ ⟨pod, ["cluster", "nodes"]⟩ ::
        ids.map (fun nid => ⟨pod, ["CLUSTER", "FORGET", nid]⟩), st.execTrace⟩) := by
  simp [forgetNode, forgetNodeIdsPhase, clientProcess, processCmd, addProc,
    configureRedisClient, hread, hms, hids, forgetLoopCmds_trace]

theorem forgetLoop_cons_error (w : World) (cr : RedisCluster) (role : String)
    (i : Nat) (rest : List Nat) (st : ExecState) (e : String) (st' : ExecState)
    (h : forgetNode w cr (rolePodName cr role i) st = some (.error e, st')) :
    forgetLoop w cr role (i :: rest) st = some (.error e, st') := by
  simp [forgetLoop, h]

theorem replicationStep_skip (w : World) (cr : RedisCluster) (nodes : List (List String))
    (i : Nat) (st : ExecState)
    (h : checkRedisNodePresence nodes
      (getRedisServerIP w.resolve ⟨cr.name ++ "-follower-" ++ toString i, cr.ns⟩)
      = some true) :
    replicationStep w cr nodes i st = some st := by
  simp [replicationStep, h]

theorem replicationLoop_all_skip (w : World) (cr : RedisCluster)
    (nodes : List (List String)) (l : List Nat) (st : ExecState)
    (h : ∀ i ∈ l, checkRedisNodePresence nodes
      (getRedisServerIP w.resolve ⟨cr.name ++ "-follower-" ++ toString i, cr.ns⟩)
      = some true) :
    l.foldlM (fun st i => replicationStep w cr nodes i st) st = some st := by
  induction l with
  | nil => rfl
  | cons i rest ih =>
    rw [List.foldlM_cons, replicationStep_skip w cr nodes i st (h i (by simp))]
    exact ih (fun j hj => h j (List.mem_cons_of_mem i hj))

theorem countUnhealthy_eq_countP (table : List (List String))
    (h : ∀ r ∈ table, 8 ≤ r.length) :
    countUnhealthy table = some (table.countP unhealthyRow) := by
  induction table with
  | nil => simp [countUnhealthy]
  | cons r rest ih =>
    have hr : 8 ≤ r.length := h r (by simp)
    obtain ⟨f2, h2⟩ : ∃ x, r.get? 2 = some x := ⟨_, List.get?_eq_get (by omega)⟩
    obtain ⟨f7, h7⟩ : ∃ x, r.get? 7 = some x := ⟨_, List.get?_eq_get (by omega)⟩
    have ihr := ih (fun r hmem => h r (List.mem_cons_of_mem _ hmem))
    simp only [countUnhealthy, h2, h7, ihr, List.countP_cons, unhealthyRow, Option.getD_some]
    cases hf : strContains f2 "fail" with
    | true => simp [hf, Nat.add_comm]
    | false =>
      cases hd : strContains f7 "disconnected" with
      | true => simp [hf, hd, Nat.add_comm]
      | false => simp [hf, hd]

theorem nodeIdsOfTable_isSome (table : List (List String))
    (h : ∀ r ∈ table, 1 ≤ r.length) : (nodeIdsOfTable table).isSome := by
  induction table with
  | nil => simp [nodeIdsOfTable]
  | cons r rest ih =>
    have hr : 1 ≤ r.length := h r (by simp)
    have h0 : r.get? 0 = some (r.get ⟨0, by omega⟩) := List.get?_eq_get (by omega)
    have ihr := ih (fun r hr => h r (List.mem_cons_of_mem _ hr))
    simp only [nodeIdsOfTable, h0]
    simp [Option.isSome_map, ihr]

theorem nodeIdsOfTable_none (table : List (List String))
    (h : ∃ r ∈ table, r.length = 0) : nodeIdsOfTable table = none := by
  induction table with
  | nil => simp at h
  | cons r rest ih =>
    rcases h with ⟨r', hr', hlen⟩
    rcases List.mem_cons.mp hr' with rfl | hmem
    · have h0 : r'.get? 0 = none := List.get?_eq_none.mpr (by omega)
      simp only [nodeIdsOfTable]
      rw [h0]
    · simp only [nodeIdsOfTable]
      cases h0 : r.get? 0 with
      | none => rfl
      | some nid => simp [ih ⟨r', hmem, hlen⟩]

theorem checkRedisNodePresence_isSome (table : List (List String)) (name : String)
    (h : ∀ r ∈ table, 2 ≤ r.length) : (checkRedisNodePresence table name).isSome := by
  induction table with
  | nil => simp [checkRedisNodePresence]
  | cons r rest ih =>
    have hr : 2 ≤ r.length := h r (by simp)
    obtain ⟨f1, h1⟩ : ∃ x, r.get? 1 = some x := ⟨_, List.get?_eq_get (by omega)⟩
    have ihr := ih (fun r hmem => h r (List.mem_cons_of_mem _ hmem))
    simp only [checkRedisNodePresence, h1]
    by_cases hm : String.mk (f1.data.takeWhile (fun c => c ≠ ':')) = name
    · rw [if_pos hm]
      rfl
    · rw [if_neg hm]
      exact ihr

theorem checkRedisNodePresence_short_head (r : List String) (rest : List (List String))
    (name : String) (h : r.length < 2) :
    checkRedisNodePresence (r :: rest) name = none := by
  have h1 : r.get? 1 = none := List.get?_eq_none.mpr (by omega)
  simp only [checkRedisNodePresence]
  rw [h1]

theorem countRole_isSome (role : String) (table : List (List String))
    (h : ∀ r ∈ table, 3 ≤ r.length) : (countRole role table).isSome := by
  induction table with
  | nil => simp [countRole]
  | cons r rest ih =>
    have hr : 3 ≤ r.length := h r (by simp)
    obtain ⟨f2, h2⟩ : ∃ x, r.get? 2 = some x := ⟨_, List.get?_eq_get (by omega)⟩
    have ihr := ih (fun r hmem => h r (List.mem_cons_of_mem _ hmem))
    simp only [countRole, h2]
    by_cases hm : strContains f2 role = true
    · simp [hm, Option.isSome_map, ihr]
    · simp [hm, ihr]

theorem countRole_none (role : String) (table : List (List String))
    (h : ∃ r ∈ table, r.length < 3) : countRole role table = none := by
  induction table with
  | nil => simp at h
  | cons r rest ih =>
    rcases h with ⟨r', hr', hlen⟩
    rcases List.mem_cons.mp hr' with rfl | hmem
    · have h2 : r'.get? 2 = none := List.get?_eq_none.mpr (by omega)
      simp only [countRole]
      rw [h2]
    · simp only [countRole]
      cases h2 : r.get? 2 with
      | none => rfl
      | some f2 =>
        by_cases hm : strContains f2 role = true
        · simp [hm, ih ⟨r', hmem, hlen⟩]
        · simp [hm, ih ⟨r', hmem, hlen⟩]

theorem countUnhealthy_isSome (table : List (List String))
    (h : ∀ r ∈ table, 8 ≤ r.length) : (countUnhealthy table).isSome := by
  rw [countUnhealthy_eq_countP table h]
  rfl

theorem countUnhealthy_short_head (r : List String) (rest : List (List String))
    (h : r.length < 3) : countUnhealthy (r :: rest) = none := by
  have h2 : r.get? 2 = none := List.get?_eq_none.mpr (by omega)
  simp only [countUnhealthy]
  rw [h2]

theorem countUnhealthy_fail_short_circuit (r : List String) (rest : List (List String))
    (f2 : String) (h2 : r.get? 2 = some f2) (hf : strContains f2 "fail" = true) :
    countUnhealthy (r :: rest) = (countUnhealthy rest).map (· + 1) := by
  simp only [countUnhealthy, h2, hf, if_true]

theorem readUnquoted_clean (cs : List Char) : ∀ (acc tail : List Char),
    (∀ c ∈ cs, cleanChar c) →
    (tail = [] ∨ tail.head? = some ' ' ∨ tail.head? = some '\n') →
    readUnquoted acc (cs ++ tail) = .ok (String.mk (acc ++ cs), tail) := by
  induction cs with
  | nil =>
    intro acc tail _ htail
    rcases htail with rfl | hsp | hnl
    · simp [readUnquoted]
    · cases tail with
      | nil => simp at hsp
      | cons c r =>
        simp only [List.head?_cons, Option.some.injEq] at hsp
        subst hsp
        simp [readUnquoted]
    · cases tail with
      | nil => simp at hnl
      | cons c r =>
        simp only [List.head?_cons, Option.some.injEq] at hnl
        subst hnl
        simp [readUnquoted]
  | cons c cs' ih =>
    intro acc tail hclean htail
    have hc : cleanChar c := hclean c (by simp)
    obtain ⟨hc1, hc2, hc3, hc4⟩ := hc
    have h1 : ¬(c = ' ' ∨ c = '\n') := by tauto
    have h2 : ¬(c = '\r' ∧ (cs' ++ tail).head? = some '\n') := by tauto
    simp only [List.cons_append, readUnquoted, List.append_eq]
    rw [if_neg h1, if_neg h2, if_neg hc4]
    rw [ih (acc ++ [c]) tail (fun x hx => hclean x (by simp [hx])) htail]
    simp

theorem readField_clean (t : String) (tail : List Char) (ht : cleanToken t)
    (htail : tail = [] ∨ tail.head? = some ' ' ∨ tail.head? = some '\n') :
    readField (t.data ++ tail) = .ok (t, tail) := by
  obtain ⟨hne, hclean⟩ := ht
  cases hd : t.data with
  | nil =>
    exfalso
    apply hne
    have := congrArg String.mk hd
    simpa using this
  | cons c cs =>
    have hc : cleanChar c := hclean c (by rw [hd]; simp)
    simp only [readField, hd, List.cons_append, List.head?_cons]
    rw [if_neg (by simp [hc.2.2.2])]
    rw [show c :: (cs ++ tail) = t.data ++ tail from by rw [hd]; rfl]
    exact readUnquoted_clean t.data [] tail hclean htail

theorem joinTokens_cons_head (r : List String) (h : wfRow r) :
    ∃ c cs, joinTokens r = c :: cs ∧ cleanChar c := by
  obtain ⟨hne, htok⟩ := h
  cases r with
  | nil => exact absurd rfl hne
  | cons t ts =>
    have ht : cleanToken t := htok t (by simp)
    obtain ⟨htne, hclean⟩ := ht
    cases hd : t.data with
    | nil =>
      exfalso
      apply htne
      have := congrArg String.mk hd
      simpa using this
    | cons c cs =>
      have hc : cleanChar c := hclean c (by rw [hd]; simp)
      cases ts with
      | nil => exact ⟨c, cs, by simp [joinTokens, hd], hc⟩
      | cons t2 ts' =>
        exact ⟨c, cs ++ ' ' :: joinTokens (t2 :: ts'), by simp [joinTokens, hd], hc⟩

theorem joinTokens_length (r : List String) (h : ∀ t ∈ r, cleanToken t) :
    r.length ≤ (joinTokens r).length := by
  induction r with
  | nil => simp [joinTokens]
  | cons t ts ih =>
    have ht : cleanToken t := h t (by simp)
    have hpos : 1 ≤ t.data.length := by
      cases hd : t.data with
      | nil =>
        exfalso
        apply ht.1
        have := congrArg String.mk hd
        simpa using this
      | cons c cs => simp
    cases ts with
    | nil => simpa [joinTokens] using hpos
    | cons t2 ts' =>
      have ihr := ih (fun x hx => h x (List.mem_cons_of_mem _ hx))
      simp only [joinTokens, List.length_append, List.length_cons] at ihr ⊢
      omega

theorem readRecordAux_clean (ts : List String) : ∀ (n : Nat) (tail : List Char),
    (∀ t ∈ ts, cleanToken t) → ts ≠ [] → ts.length ≤ n →
    (tail = [] ∨ ∃ r', tail = '\n' :: r') →
    readRecordAux n (joinTokens ts ++ tail) = .ok (ts, dropNl tail) := by
  induction ts with
  | nil => intro n tail _ hne _ _; exact absurd rfl hne
  | cons t ts' ih =>
    intro n tail hclean _ hlen htail
    cases n with
    | zero => simp at hlen
    | succ m =>
      have ht : cleanToken t := hclean t (by simp)
      cases ts' with
      | nil =>
        have hfld : readField (t.data ++ tail) = .ok (t, tail) := by
          apply readField_clean t tail ht
          rcases htail with rfl | ⟨r', rfl⟩
          · exact Or.inl rfl
          · exact Or.inr (Or.inr (by simp))
        simp only [joinTokens, readRecordAux, hfld]
        rcases htail with rfl | ⟨r', rfl⟩
        · simp [dropNl]
        · simp [dropNl]
      | cons t2 ts'' =>
        have hjoin : joinTokens (t :: t2 :: ts'') ++ tail
            = t.data ++ (' ' :: (joinTokens (t2 :: ts'') ++ tail)) := by
          simp [joinTokens]
        have hfld : readField (t.data ++ (' ' :: (joinTokens (t2 :: ts'') ++ tail)))
            = .ok (t, ' ' :: (joinTokens (t2 :: ts'') ++ tail)) := by
          apply readField_clean t _ ht
          exact Or.inr (Or.inl (by simp))
        have hrec := ih m tail (fun x hx => hclean x (List.mem_cons_of_mem _ hx))
          (by simp) (by simpa using hlen) htail
        rw [hjoin]
        simp [readRecordAux, hfld, hrec]

theorem renderRows_length (rows : List (List String)) (h : wfRows rows) :
    rows.length ≤ (renderRows rows).length := by
  induction rows with
  | nil => simp [renderRows]
  | cons r rs ih =>
    have hr : wfRow r := h r (by simp)
    have hjl : 1 ≤ (joinTokens r).length := by
      obtain ⟨c, cs, hj, _⟩ := joinTokens_cons_head r hr
      simp [hj]
    cases rs with
    | nil => simpa [renderRows] using hjl
    | cons r2 rs' =>
      have ihr := ih (fun x hx => h x (List.mem_cons_of_mem _ hx))
      simp only [renderRows, List.length_append, List.length_cons] at ihr ⊢
      omega

theorem readAllAux_clean (rows : List (List String)) : ∀ (n : Nat) (acc : List (List String)),
    wfRows rows → rows.length < n →
    readAllAux n (renderRows rows) acc = (acc.reverse ++ rows, none) := by
  induction rows with
  | nil =>
    intro n acc _ hn
    cases n with
    | zero => simp at hn
    | succ m => simp [renderRows, readAllAux]
  | cons r rs ih =>
    intro n acc hwf hn
    cases n with
    | zero => simp at hn
    | succ m =>
      have hr : wfRow r := hwf r (by simp)
      have hwfs : wfRows rs := fun x hx => hwf x (List.mem_cons_of_mem _ hx)
      obtain ⟨c, cs2, hjoin, hc⟩ := joinTokens_cons_head r hr
      have hrecord : ∀ (tail : List Char), (tail = [] ∨ ∃ r', tail = '\n' :: r') →
          readRecordAux ((joinTokens r ++ tail).length + 1) (joinTokens r ++ tail)
            = .ok (r, dropNl tail) := by
        intro tail htail
        apply readRecordAux_clean r _ tail hr.2 hr.1 _ htail
        have h1 := joinTokens_length r hr.2
        simp only [List.length_append]
        omega
      cases rs with
      | nil =>
        have hrec := hrecord [] (Or.inl rfl)
        simp only [renderRows, List.append_nil] at hrec ⊢
        rw [show joinTokens r = c :: cs2 from hjoin] at hrec ⊢
        simp only [readAllAux]
        rw [if_neg (by simp [hc.2.1]),
          if_neg (by rintro ⟨h1, _⟩; exact hc.2.2.1 h1)]
        rw [hrec]
        cases m with
        | zero => simp at hn
        | succ m2 => simp [readAllAux, dropNl]
      | cons r2 rs' =>
        have hrec := hrecord ('\n' :: renderRows (r2 :: rs')) (Or.inr ⟨_, rfl⟩)
        have hdrop : dropNl ('\n' :: renderRows (r2 :: rs')) = renderRows (r2 :: rs') := by
          simp [dropNl]
        rw [hdrop] at hrec
        have hrw : renderRows (r :: r2 :: rs') = joinTokens r ++ '\n' :: renderRows (r2 :: rs') := by
          simp [renderRows]
        rw [hrw]
        rw [show joinTokens r = c :: cs2 from hjoin] at hrec ⊢
        simp only [List.cons_append, readAllAux] at hrec ⊢
        rw [if_neg (by simp [hc.2.1]),
          if_neg (by rintro ⟨h1, _⟩; exact hc.2.2.1 h1)]
        rw [hrec]
        have ihr := ih m (r :: acc) hwfs (by simpa using hn)
        simp [ihr]

theorem csvReadAll_renderRows (rows : List (List String)) (h : wfRows rows) :
    csvReadAll (String.mk (renderRows rows)) = (rows, none) := by
  have hlen := renderRows_length rows h
  have := readAllAux_clean rows ((renderRows rows).length + 1) [] h (by omega)
  simpa [csvReadAll] using this

theorem readAllAux_error_fst (n : Nat) : ∀ (input : List Char)
    (acc : List (List String)) (e : String),
    (readAllAux n input acc).2 = some e → (readAllAux n input acc).1 = [] := by
  induction n with
  | zero => intro input acc e _; rfl
  | succ m ih =>
    intro input acc e h
    cases input with
    | nil => simp [readAllAux] at h
    | cons c r =>
      simp only [readAllAux] at h ⊢
      by_cases h1 : c = '\n'
      · rw [if_pos h1] at h ⊢
        exact ih r acc e h
      · rw [if_neg h1] at h ⊢
        by_cases h2 : c = '\r' ∧ r.head? = some '\n'
        · rw [if_pos h2] at h ⊢
          exact ih r.tail acc e h
        · rw [if_neg h2] at h ⊢
          cases hr : readRecordAux ((c :: r).length + 1) (c :: r) with
          | error e2 => rfl
          | ok p =>
            obtain ⟨rec, rest⟩ := p
            rw [hr] at h
            exact ih rest (rec :: acc) e h

theorem csvReadAll_error_fst (s : String) (e : String)
    (h : (csvReadAll s).2 = some e) : (csvReadAll s).1 = [] :=
  readAllAux_error_fst _ _ _ e h

/-! ### Claim theorems -/

/-- Claim C1 (corrected) — counterexample against the claim as stated: in a run
where the first `cluster reset` fails and the fallback `flushall` succeeds, the
source unconditionally processes the reset command a second time, so the trace
for that node contains two reset attempts (the claim asserts no second reset
attempt is issued). -/
theorem C1_counterexample :
    executeFailoverCommand wReset1 crOneLeader "leader" ⟨[], []⟩ =
      (.ok (), ⟨[⟨"rc-leader-0", ["cluster", "reset"]⟩, ⟨"rc-leader-0", ["flushall"]⟩,
        ⟨"rc-leader-0", ["cluster", "reset"]⟩], []⟩) ∧
    List.countP (fun c => c.args == ["cluster", "reset"])
      [(⟨"rc-leader-0", ["cluster", "reset"]⟩ : IssuedCmd),
       ⟨"rc-leader-0", ["flushall"]⟩, ⟨"rc-leader-0", ["cluster", "reset"]⟩] = 2 := by
  exact ⟨by decide, by decide⟩

/-- Claim C1 (corrected) — amended: when a node's `cluster reset` fails, a
failing `flushall` aborts the whole operation with the flush error; a
successful `flushall` does not end the node's processing — the reset is
unconditionally issued a second time, and the node completes without error
exactly when this second reset succeeds, a second-reset failure aborting with
that error; a per-node error stops the pod loop immediately. -/
theorem C1_reset_flush_fallback (w : World) (cl : RedisClientHandle) (st : ExecState)
    (cr : RedisCluster) (role : String) (i : Nat) (rest : List Nat)
    (e1 e2 s2 e3 s3 eL : String) (stL : ExecState) :
    (w.proc st.procTrace.length ⟨cl.pod, ["cluster", "reset"]⟩ = .error e1 →
      w.proc (st.procTrace.length + 1) ⟨cl.pod, ["flushall"]⟩ = .error e2 →
      failoverNode w cl st = (.error e2,
        ⟨st.procTrace ++ [⟨cl.pod, ["cluster", "reset"]⟩, ⟨cl.pod, ["flushall"]⟩],
         st.execTrace⟩)) ∧
    (w.proc st.procTrace.length ⟨cl.pod, ["cluster", "reset"]⟩ = .error e1 →
      w.proc (st.procTrace.length + 1) ⟨cl.pod, ["flushall"]⟩ = .ok s2 →
      w.proc (st.procTrace.length + 1 + 1) ⟨cl.pod, ["cluster", "reset"]⟩ = .error e3 →
      failoverNode w cl st = (.error e3,
        ⟨st.procTrace ++ [⟨cl.pod, ["cluster", "reset"]⟩, ⟨cl.pod, ["flushall"]⟩,
          ⟨cl.pod, ["cluster", "reset"]⟩], st.execTrace⟩)) ∧
    (w.proc st.procTrace.length ⟨cl.pod, ["cluster", "reset"]⟩ = .error e1 →
      w.proc (st.procTrace.length + 1) ⟨cl.pod, ["flushall"]⟩ = .ok s2 →
      w.proc (st.procTrace.length + 1 + 1) ⟨cl.pod, ["cluster", "reset"]⟩ = .ok s3 →
      failoverNode w cl st = (.ok (),
        ⟨st.procTrace ++ [⟨cl.pod, ["cluster", "reset"]⟩, ⟨cl.pod, ["flushall"]⟩,
          ⟨cl.pod, ["cluster", "reset"]⟩], st.execTrace⟩)) ∧
    (failoverNode w (configureRedisClient w cr (rolePodName cr role i)) st
        = (.error eL, stL) →
      failoverLoop w cr role (i :: rest) st = (.error eL, stL)) :=
  ⟨fun h1 h2 => failoverNode_flush_fail w cl st e1 e2 h1 h2,
   fun h1 h2 h3 => failoverNode_flush_ok_second_fail w cl st e1 s2 e3 h1 h2 h3,
   fun h1 h2 h3 => failoverNode_flush_ok_second_ok w cl st e1 s2 s3 h1 h2 h3,
   fun h => failoverLoop_cons_error w cr role i rest st eL stL h⟩

/-- Witness for C1: concrete runs discharging every hypothesis — reset and
flush both failing (flush error returned), reset failing with flush
succeeding and the unconditionally re-issued reset failing (its error
returned) or succeeding (node completes), and loop propagation of a node
error. -/
theorem C1_reset_flush_fallback_witness :
    failoverNode wAllFail ⟨"p", "10.0.0.1:6379"⟩ ⟨[], []⟩ =
      (.error "down", ⟨[⟨"p", ["cluster", "reset"]⟩, ⟨"p", ["flushall"]⟩], []⟩) ∧
    failoverNode wResetFails ⟨"p", "10.0.0.1:6379"⟩ ⟨[], []⟩ =
      (.error "reset boom", ⟨[⟨"p", ["cluster", "reset"]⟩, ⟨"p", ["flushall"]⟩,
        ⟨"p", ["cluster", "reset"]⟩], []⟩) ∧
    failoverNode wReset1 ⟨"rc-leader-0", "10.0.0.1:6379"⟩ ⟨[], []⟩ =
      (.ok (), ⟨[⟨"rc-leader-0", ["cluster", "reset"]⟩, ⟨"rc-leader-0", ["flushall"]⟩,
        ⟨"rc-leader-0", ["cluster", "reset"]⟩], []⟩) ∧
    failoverLoop wAllFail crOneLeader "leader" [0] ⟨[], []⟩ =
      (.error "down", ⟨[⟨"rc-leader-0", ["cluster", "reset"]⟩,
        ⟨"rc-leader-0", ["flushall"]⟩], []⟩) := by
  refine ⟨?_, ?_, ?_, ?_⟩
  · exact (C1_reset_flush_fallback wAllFail ⟨"p", "10.0.0.1:6379"⟩ ⟨[], []⟩ crOneLeader
      "leader" 0 [] "down" "down" "" "" "" "" ⟨[], []⟩).1 (by decide) (by decide)
  · exact (C1_reset_flush_fallback wResetFails ⟨"p", "10.0.0.1:6379"⟩ ⟨[], []⟩ crOneLeader
      "leader" 0 [] "reset boom" "" "OK" "reset boom" "" "" ⟨[], []⟩).2.1
      (by decide) (by decide) (by decide)
  · exact (C1_reset_flush_fallback wReset1 ⟨"rc-leader-0", "10.0.0.1:6379"⟩ ⟨[], []⟩
      crOneLeader "leader" 0 [] "reset boom" "" "OK" "" "OK" "" ⟨[], []⟩).2.2.1
      (by decide) (by decide) (by decide)
  · exact (C1_reset_flush_fallback wAllFail ⟨"p", "10.0.0.1:6379"⟩ ⟨[], []⟩ crOneLeader
      "leader" 0 [] "" "" "" "" "" "down"
      ⟨[⟨"rc-leader-0", ["cluster", "reset"]⟩, ⟨"rc-leader-0", ["flushall"]⟩], []⟩).2.2.2
      (by decide)

/-- Claim C2 (corrected) — counterexample against the claim as stated: on a
response that cannot be parsed as tabular text (a bare quote), the parser
reports an error, but `checkRedisCluster` does not signal it to its caller —
it returns a plain (empty) node table; only `getNodeIds` surfaces the parse
error. -/
theorem C2_counterexample :
    (checkRedisCluster wBadParse crOneLeader ⟨[], []⟩).1 = [] ∧
    (csvReadAll "ab\"c").2 = some "bare quote in non-quoted field" ∧
    getNodeIds "ab\"c" = some (.error "bare quote in non-quoted field") :=
  ⟨by decide, by decide, by decide⟩

/-- Claim C2 (corrected) — amended: the topology read tolerates rows with
missing optional trailing fields (every well-formed table, whatever each
row's width, parses back with no error); but when the response cannot be
parsed, `checkRedisCluster` does not fail — `ReadAll` yields nil records with
the error, the error is only logged, and the caller receives an empty node
table (the function has no error result at all); only `getNodeIds` signals
the parse error to its caller. -/
theorem C2_parse_tolerance_no_error_signal :
    (∀ rows : List (List String), wfRows rows →
      csvReadAll (String.mk (renderRows rows)) = (rows, none)) ∧
    (∀ (w : World) (cr : RedisCluster) (st : ExecState),
      checkRedisCluster w cr st =
        ((csvReadAll (clusterNodesOutput w cr st)).1,
         addProc st ⟨cr.name ++ "-leader-0", ["cluster", "nodes"]⟩)) ∧
    (∀ (s : String) (e : String), (csvReadAll s).2 = some e → (csvReadAll s).1 = []) ∧
    (∀ (s : String) (recs : List (List String)) (e : String),
      csvReadAll s = (recs, some e) → getNodeIds s = some (.error e)) := by
  refine ⟨csvReadAll_renderRows, ?_, csvReadAll_error_fst, ?_⟩
  · intro w cr st
    simp only [checkRedisCluster, clusterNodesOutput, clientProcess, processCmd,
      configureRedisClient]
  · intro s recs e h
    simp [getNodeIds, h]

/-- Witness for C2: a concrete table whose rows have nine and three fields
parses back exactly, with no error. -/
theorem C2_parse_tolerance_no_error_signal_witness :
    csvReadAll (String.mk (renderRows
      [["id1", "10.0.0.1:6379@16379", "master", "-", "0", "0", "1", "connected", "0-5460"],
       ["id2", "10.0.0.2:6379@16379", "master,fail"]])) =
      ([["id1", "10.0.0.1:6379@16379", "master", "-", "0", "0", "1", "connected", "0-5460"],
        ["id2", "10.0.0.2:6379@16379", "master,fail"]], none) :=
  C2_parse_tolerance_no_error_signal.1 _
    (by simp only [wfRows, wfRow, cleanToken, cleanChar]; decide)

/-- Claim C3 (corrected) — counterexample against the claim as stated: with
every pod lookup failing, `getRedisServerIP` returns the bracketed empty
address `"[]"` instead of surfacing an error, and the enclosing mesh rebuild
runs to completion, issuing a meet command with that junk address — execution
is not aborted and no error propagates. -/
theorem C3_counterexample :
    getRedisServerIP wNoPod.resolve ⟨"r-follower-0", "ns"⟩ = "[]" ∧
    executeMasterClusterCreation wNoPod crTwoLeaders ⟨[], []⟩ =
      ⟨[⟨"r-leader-0", ["cluster", "meet", "[]", "6379"]⟩], []⟩ :=
  ⟨by decide, by decide⟩

/-- Claim C3 (corrected) — amended: a failed address resolution is only
logged; `getRedisServerIP` then returns the bracketed empty address `"[]"`
(the function has no error result) and the enclosing operation continues —
the mesh rebuild, for instance, always completes and issues its full meet
trace whatever the resolver answers. -/
theorem C3_resolution_failure_continues (resolve : String → Except String String)
    (ri : RedisDetails) (e : String) (h : resolve ri.PodName = .error e) :
    getRedisServerIP resolve ri = "[]" ∧
    ∀ (w : World) (cr : RedisCluster) (st : ExecState),
      executeMasterClusterCreation w cr st =
        ⟨st.procTrace ++ (ascPairs (GetReplicaCounts cr "leader")).map (meetCmdFor w cr),
         st.execTrace⟩ := by
  constructor
  · simp only [getRedisServerIP, h]
    decide
  · intro w cr st
    exact masterCreation_trace w cr st

/-- Witness for C3: a concrete failing resolution yields the bracketed empty
address. -/
theorem C3_resolution_failure_continues_witness :
    getRedisServerIP wNoPod.resolve ⟨"r-follower-9", "ns"⟩ = "[]" ∧
    executeMasterClusterCreation wNoPod crTwoLeaders ⟨[⟨"q", ["x"]⟩], []⟩ =
      ⟨[⟨"q", ["x"]⟩, ⟨"r-leader-0", ["cluster", "meet", "[]", "6379"]⟩], []⟩ := by
  have h := C3_resolution_failure_continues wNoPod.resolve ⟨"r-follower-9", "ns"⟩
    "pod not found" rfl
  exact ⟨h.1, (h.2 wNoPod crTwoLeaders ⟨[⟨"q", ["x"]⟩], []⟩).trans (by decide)⟩

/-- Claim C4 (confirmed): forced failover processes every leader before any
follower is touched — if the leader phase fails, the error is propagated as
the operation's result and the trace contains no command addressed to any
follower pod; if the leader phase succeeds, all its commands target leader
pods and every follower-phase command is appended strictly after them. -/
theorem C4_leaders_before_followers (w : World) (cr : RedisCluster) :
    (∀ (e : String) (st1 : ExecState),
      executeFailoverCommand w cr "leader" ⟨[], []⟩ = (.error e, st1) →
      ExecuteFailoverOperation w cr = (.error e, st1) ∧
      ∀ c ∈ st1.procTrace, ¬ ∃ j, c.pod = rolePodName cr "follower" j) ∧
    (∀ st1 : ExecState,
      executeFailoverCommand w cr "leader" ⟨[], []⟩ = (.ok (), st1) →
      (∀ c ∈ st1.procTrace, ∃ i, c.pod = rolePodName cr "leader" i) ∧
      ∃ tail, ((ExecuteFailoverOperation w cr).2).procTrace = st1.procTrace ++ tail ∧
        ∀ c ∈ tail, ∃ j, c.pod = rolePodName cr "follower" j) := by
  constructor
  · intro e st1 h
    obtain ⟨tail, htr, hp⟩ := failoverLoop_trace w cr "leader"
      (List.range (GetReplicaCounts cr "leader")) ⟨[], []⟩
    rw [show failoverLoop w cr "leader" (List.range (GetReplicaCounts cr "leader")) ⟨[], []⟩
        = executeFailoverCommand w cr "leader" ⟨[], []⟩ from rfl, h] at htr
    replace htr : st1 = ⟨[] ++ tail, []⟩ := htr
    constructor
    · simp [ExecuteFailoverOperation, h]
    · intro c hc
      rintro ⟨j, hj⟩
      rw [htr] at hc
      simp only [List.nil_append] at hc
      obtain ⟨i, hi⟩ := hp c hc
      exact rolePodName_leader_ne_follower cr cr rfl i j (hi ▸ hj)
  · intro st1 h
    obtain ⟨tailL, htrL, hpL⟩ := failoverLoop_trace w cr "leader"
      (List.range (GetReplicaCounts cr "leader")) ⟨[], []⟩
    rw [show failoverLoop w cr "leader" (List.range (GetReplicaCounts cr "leader")) ⟨[], []⟩
        = executeFailoverCommand w cr "leader" ⟨[], []⟩ from rfl, h] at htrL
    replace htrL : st1 = ⟨[] ++ tailL, []⟩ := htrL
    constructor
    · intro c hc
      rw [htrL] at hc
      simp only [List.nil_append] at hc
      exact hpL c hc
    · obtain ⟨tailF, htrF, hpF⟩ := failoverLoop_trace w cr "follower"
        (List.range (GetReplicaCounts cr "follower")) st1
      rcases hf : executeFailoverCommand w cr "follower" st1 with ⟨res2, st2⟩
      rw [show failoverLoop w cr "follower" (List.range (GetReplicaCounts cr "follower")) st1
          = executeFailoverCommand w cr "follower" st1 from rfl, hf] at htrF
      replace htrF : st2 = ⟨st1.procTrace ++ tailF, st1.execTrace⟩ := htrF
      refine ⟨tailF, ?_, hpF⟩
      have hop : (ExecuteFailoverOperation w cr).2 = st2 := by
        cases res2 with
        | error e2 => simp [ExecuteFailoverOperation, h, hf]
        | ok u => simp [ExecuteFailoverOperation, h, hf]
      rw [hop, htrF]

/-- Witness for C4: on a two-leader, one-follower cluster where leader 1's
reset and flushall both fail, the whole forced failover returns the flush
error and no command in the trace is addressed to any follower pod —
follower ordinal 0 is never touched. -/
theorem C4_leaders_before_followers_witness :
    ExecuteFailoverOperation wLeader1Fails crTwoOne =
      (.error "flush boom",
        ⟨[⟨"rc-leader-0", ["cluster", "reset"]⟩, ⟨"rc-leader-0", ["cluster", "reset"]⟩,
          ⟨"rc-leader-1", ["cluster", "reset"]⟩, ⟨"rc-leader-1", ["flushall"]⟩], []⟩) ∧
    ∀ c ∈ (⟨[⟨"rc-leader-0", ["cluster", "reset"]⟩, ⟨"rc-leader-0", ["cluster", "reset"]⟩,
        ⟨"rc-leader-1", ["cluster", "reset"]⟩, ⟨"rc-leader-1", ["flushall"]⟩], []⟩ :
        ExecState).procTrace,
      ¬ ∃ j, c.pod = rolePodName crTwoOne "follower" j := by
  have h := (C4_leaders_before_followers wLeader1Fails crTwoOne).1 "flush boom"
    ⟨[⟨"rc-leader-0", ["cluster", "reset"]⟩, ⟨"rc-leader-0", ["cluster", "reset"]⟩,
      ⟨"rc-leader-1", ["cluster", "reset"]⟩, ⟨"rc-leader-1", ["flushall"]⟩], []⟩
    (by decide)
  exact ⟨h.1, h.2⟩

/-- Claim C5 (confirmed): replica attachment is idempotent — whenever every
follower's resolved IP is already present (as the IP portion of some row's
address field) in the node table read at the start of the call, the call
issues zero add-node pod-exec commands: it returns exactly the state left by
the topology read, whose exec trace is empty; and each single follower whose
IP is present is skipped without any command. -/
theorem C5_replication_idempotent (w : World) (cr : RedisCluster) :
    ((∀ i, i < GetReplicaCounts cr "follower" →
        checkRedisNodePresence (checkRedisCluster w cr ⟨[], []⟩).1
          (getRedisServerIP w.resolve ⟨cr.name ++ "-follower-" ++ toString i, cr.ns⟩)
          = some true) →
      ExecuteRedisReplicationCommand w cr = some (checkRedisCluster w cr ⟨[], []⟩).2 ∧
      ((checkRedisCluster w cr ⟨[], []⟩).2).execTrace = []) ∧
    (∀ (nodes : List (List String)) (i : Nat) (st : ExecState),
      checkRedisNodePresence nodes
        (getRedisServerIP w.resolve ⟨cr.name ++ "-follower-" ++ toString i, cr.ns⟩)
        = some true →
      replicationStep w cr nodes i st = some st) := by
  constructor
  · intro h
    constructor
    · apply replicationLoop_all_skip
      intro i hi
      exact h i (List.mem_range.mp hi)
    · rfl
  · intro nodes i st h
    exact replicationStep_skip w cr nodes i st h

/-- Witness for C5: a world whose topology read lists both the leader's and
the follower's IPs — the attachment call issues no pod-exec command at all
(its exec trace is empty: zero add-node commands). -/
theorem C5_replication_idempotent_witness :
    ExecuteRedisReplicationCommand wAllPresent crOneOne =
      some ⟨[⟨"g-leader-0", ["cluster", "nodes"]⟩], []⟩ := by
  have h := (C5_replication_idempotent wAllPresent crOneOne).1
    (fun i hi => by
      have hi0 : i = 0 := by
        simpa [GetReplicaCounts, crOneOne] using hi
      subst hi0
      decide)
  exact h.1.trans (by decide)

/-- Claim C6 (confirmed): the graceful-recovery mesh rebuild issues exactly
one meet command per unordered pair of leader ordinals `{i, j}`, `i < j < N`,
from ordinal `i`'s client targeting ordinal `j`'s resolved address, in
strictly ascending lexicographic pair order with no pair repeated. -/
theorem C6_mesh_ascending_pairs (w : World) (cr : RedisCluster) :
    executeMasterClusterCreation w cr ⟨[], []⟩ =
      ⟨(ascPairs (GetReplicaCounts cr "leader")).map (meetCmdFor w cr), []⟩ ∧
    (∀ p : Nat × Nat, p ∈ ascPairs (GetReplicaCounts cr "leader") ↔
      p.1 < p.2 ∧ p.2 < GetReplicaCounts cr "leader") ∧
    List.Pairwise pairLt (ascPairs (GetReplicaCounts cr "leader")) ∧
    (ascPairs (GetReplicaCounts cr "leader")).Nodup :=
  ⟨by simpa using masterCreation_trace w cr ⟨[], []⟩,
   fun p => mem_ascPairs _ p, ascPairs_pairwise _, ascPairs_nodup _⟩

/-- Witness for C6: three leaders produce exactly the meets (0,1), (0,2),
(1,2) in that order, and (1, 2) is recognised as an ascending pair. -/
theorem C6_mesh_ascending_pairs_witness :
    executeMasterClusterCreation wAllOk crThreeLeaders ⟨[], []⟩ =
      ⟨[⟨"m-leader-0", ["cluster", "meet", "10.0.0.1", "6379"]⟩,
        ⟨"m-leader-0", ["cluster", "meet", "10.0.0.1", "6379"]⟩,
        ⟨"m-leader-1", ["cluster", "meet", "10.0.0.1", "6379"]⟩], []⟩ ∧
    (1, 2) ∈ ascPairs (GetReplicaCounts crThreeLeaders "leader") := by
  constructor
  · exact (C6_mesh_ascending_pairs wAllOk crThreeLeaders).1.trans (by decide)
  · exact ((C6_mesh_ascending_pairs wAllOk crThreeLeaders).2.1 (1, 2)).mpr (by decide)

/-- Claim C7 (confirmed): on any node table whose rows all have at least 8
fields, `CheckRedisClusterState` returns exactly the number of rows whose
flag field (field 2) contains "fail" or whose link-state field (field 7)
contains "disconnected", each row counted at most once. -/
theorem C7_count_unhealthy (w : World) (cr : RedisCluster)
    (h : ∀ r ∈ (checkRedisCluster w cr ⟨[], []⟩).1, 8 ≤ r.length) :
    CheckRedisClusterState w cr =
      some (((checkRedisCluster w cr ⟨[], []⟩).1).countP unhealthyRow) :=
  countUnhealthy_eq_countP _ h

/-- Witness for C7: the spec's two-row scenario table (one healthy master
with a slot range, one failed master without one) counts exactly one
unhealthy node. -/
theorem C7_count_unhealthy_witness :
    CheckRedisClusterState wScenario crThreeLeaders = some 1 := by
  have h := C7_count_unhealthy wScenario crThreeLeaders (by decide)
  exact h.trans (by decide)

/-- Claim C8 (confirmed): in the graceful-recovery forget steps, a failure of
any per-node `cluster nodes` read aborts the whole recovery and propagates
the error to the caller — at any position in either pod loop a failing read
stops the loop with that error, a failing leader phase is returned by
`ExecuteGracefulFailOverOperation` directly, and so is a failing follower
phase after a successful leader phase; meanwhile the outcomes of individual
`CLUSTER FORGET` commands are irrelevant to the result (two worlds differing
only on forget outcomes give identical runs), and on a successful read the
forget loop issues a forget command for every listed node id and returns
without error whatever those commands answer. -/
theorem C8_forget_error_policy :
    (∀ (w : World) (cr : RedisCluster) (role : String) (i : Nat) (rest : List Nat)
        (st : ExecState) (e : String),
      w.proc st.procTrace.length ⟨rolePodName cr role i, ["cluster", "nodes"]⟩ = .error e →
      forgetLoop w cr role (i :: rest) st =
        some (.error e, addProc st ⟨rolePodName cr role i, ["cluster", "nodes"]⟩)) ∧
    (∀ (w : World) (cr : RedisCluster) (e : String) (st' : ExecState),
      executeClusterForget w cr "leader" ⟨[], []⟩ = some (.error e, st') →
      ExecuteGracefulFailOverOperation w cr = some (.error e, st')) ∧
    (∀ (w : World) (cr : RedisCluster) (st1 : ExecState) (e : String) (st' : ExecState),
      executeClusterForget w cr "leader" ⟨[], []⟩ = some (.ok (), st1) →
      executeClusterForget w cr "follower" st1 = some (.error e, st') →
      ExecuteGracefulFailOverOperation w cr = some (.error e, st')) ∧
    (∀ (w₁ w₂ : World) (cr : RedisCluster) (role : String) (st : ExecState),
      AgreeExceptForget w₁ w₂ →
      executeClusterForget w₁ cr role st = executeClusterForget w₂ cr role st) ∧
    (∀ (w : World) (cr : RedisCluster) (pod : String) (st : ExecState)
        (s : String) (ids : List String),
      w.proc st.procTrace.length ⟨pod, ["cluster", "nodes"]⟩ = .ok s →
      strContains s "myself,slave" = false →
      getNodeIds s = some (.ok ids) →
      forgetNode w cr pod st = some (.ok (),
        ⟨st.procTrace ++ ⟨pod, ["cluster", "nodes"]⟩ ::
          ids.map (fun nid => ⟨pod, ["CLUSTER", "FORGET", nid]⟩), st.execTrace⟩)) := by
  refine ⟨?_, ?_, ?_, ?_, ?_⟩
  · intro w cr role i rest st e h
    exact forgetLoop_cons_error w cr role i rest st e _
      (forgetNode_read_error w cr (rolePodName cr role i) st e h)
  · intro w cr e st' h
    simp [ExecuteGracefulFailOverOperation, h]
  · intro w cr st1 e st' h1 h2
    simp [ExecuteGracefulFailOverOperation, h1, h2]
  · intro w₁ w₂ cr role st h
    exact executeClusterForget_agree w₁ w₂ cr role st h
  · intro w cr pod st s ids hread hms hids
    exact forgetNode_ok_forgets w cr pod st s ids hread hms hids

/-- Witness for C8: a mid-run follower read failure (fourth command of the
run, after a successful leader phase) stops the follower loop and the whole
graceful recovery returns that error; a leader-phase read failure is
propagated the same way; a world whose every forget command fails runs
identically to one whose forgets succeed; and on a successful one-row read
(no `myself,slave`), the node's own id is forgotten and the step returns
without error even though that forget command fails. -/
theorem C8_forget_error_policy_witness :
    forgetLoop wFollowerReadFails crOneOne "follower" [0]
      ⟨[⟨"g-leader-0", ["cluster", "nodes"]⟩, ⟨"g-leader-0", ["CLUSTER", "FORGET", "id1"]⟩,
        ⟨"g-leader-0", ["CLUSTER", "FORGET", "id2"]⟩], []⟩ =
      some (.error "follower down",
        ⟨[⟨"g-leader-0", ["cluster", "nodes"]⟩, ⟨"g-leader-0", ["CLUSTER", "FORGET", "id1"]⟩,
          ⟨"g-leader-0", ["CLUSTER", "FORGET", "id2"]⟩,
          ⟨"g-follower-0", ["cluster", "nodes"]⟩], []⟩) ∧
    ExecuteGracefulFailOverOperation wFollowerReadFails crOneOne =
      some (.error "follower down",
        ⟨[⟨"g-leader-0", ["cluster", "nodes"]⟩, ⟨"g-leader-0", ["CLUSTER", "FORGET", "id1"]⟩,
          ⟨"g-leader-0", ["CLUSTER", "FORGET", "id2"]⟩,
          ⟨"g-follower-0", ["cluster", "nodes"]⟩], []⟩) ∧
    ExecuteGracefulFailOverOperation wReadFails crOneLeader =
      some (.error "node down", ⟨[⟨"rc-leader-0", ["cluster", "nodes"]⟩], []⟩) ∧
    executeClusterForget wForgetFail crOneLeader "leader" ⟨[], []⟩ =
      executeClusterForget wForgetBase crOneLeader "leader" ⟨[], []⟩ ∧
    forgetNode wForgetFail crOneLeader "rc-leader-0" ⟨[], []⟩ =
      some (.ok (), ⟨[⟨"rc-leader-0", ["cluster", "nodes"]⟩,
        ⟨"rc-leader-0", ["CLUSTER", "FORGET", "id1"]⟩], []⟩) := by
  refine ⟨?_, ?_, ?_, ?_, ?_⟩
  · exact (C8_forget_error_policy.1 wFollowerReadFails crOneOne "follower" 0 []
      ⟨[⟨"g-leader-0", ["cluster", "nodes"]⟩, ⟨"g-leader-0", ["CLUSTER", "FORGET", "id1"]⟩,
        ⟨"g-leader-0", ["CLUSTER", "FORGET", "id2"]⟩], []⟩
      "follower down" (by decide)).trans (by decide)
  · exact C8_forget_error_policy.2.2.1 wFollowerReadFails crOneOne
      ⟨[⟨"g-leader-0", ["cluster", "nodes"]⟩, ⟨"g-leader-0", ["CLUSTER", "FORGET", "id1"]⟩,
        ⟨"g-leader-0", ["CLUSTER", "FORGET", "id2"]⟩], []⟩
      "follower down"
      ⟨[⟨"g-leader-0", ["cluster", "nodes"]⟩, ⟨"g-leader-0", ["CLUSTER", "FORGET", "id1"]⟩,
        ⟨"g-leader-0", ["CLUSTER", "FORGET", "id2"]⟩,
        ⟨"g-follower-0", ["cluster", "nodes"]⟩], []⟩
      (by decide) (by decide)
  · exact C8_forget_error_policy.2.1 wReadFails crOneLeader "node down"
      ⟨[⟨"rc-leader-0", ["cluster", "nodes"]⟩], []⟩ (by decide)
  · exact C8_forget_error_policy.2.2.2.1 wForgetFail wForgetBase crOneLeader "leader"
      ⟨[], []⟩ ⟨rfl, fun t c hc => if_neg hc⟩
  · exact (C8_forget_error_policy.2.2.2.2 wForgetFail crOneLeader "rc-leader-0" ⟨[], []⟩
      "id1 10.0.0.1:6379@16379 myself,master - 0 0 1 connected" ["id1"]
      (by decide) (by decide) (by decide)).trans (by decide)

/-- Claim C9 (confirmed): whenever both forget steps complete without error,
`ExecuteGracefulFailOverOperation` returns success regardless of what happens
in the mesh-rebuild step (meet errors are only logged) and in the follower
reattachment step (whose error result is discarded), and the reset endpoint
then reports 200 OK. -/
theorem C9_graceful_discards_late_errors (w : World) (cr : RedisCluster)
    (st1 st2 : ExecState)
    (h1 : executeClusterForget w cr "leader" ⟨[], []⟩ = some (.ok (), st1))
    (h2 : executeClusterForget w cr "follower" st1 = some (.ok (), st2)) :
    (∃ st3, ExecuteGracefulFailOverOperation w cr = some (.ok (), st3)) ∧
    resetClusterHandler (.ok cr) w = some (200, "OK") := by
  have hg : ExecuteGracefulFailOverOperation w cr = some (.ok (),
      (executeFailoverCommand w cr "follower" (executeMasterClusterCreation w cr st2)).2) := by
    simp [ExecuteGracefulFailOverOperation, h1, h2]
  exact ⟨⟨_, hg⟩, by simp [resetClusterHandler, recoverCluster, hg]⟩

/-- Witness for C9: a world where both forget-phase reads succeed but every
forget, every meet, the follower reset and the flushall all fail — the
operation still returns success and the endpoint reports 200 OK. -/
theorem C9_graceful_discards_late_errors_witness :
    resetClusterHandler (.ok crOneOne) wGraceful = some (200, "OK") ∧
    wGraceful.proc 0 ⟨"g-leader-0", ["CLUSTER", "FORGET", "id1"]⟩ = .error "down" ∧
    wGraceful.proc 0 ⟨"g-follower-0", ["flushall"]⟩ = .error "down" := by
  refine ⟨?_, by decide, by decide⟩
  exact (C9_graceful_discards_late_errors wGraceful crOneOne
    ⟨[⟨"g-leader-0", ["cluster", "nodes"]⟩, ⟨"g-leader-0", ["CLUSTER", "FORGET", "id1"]⟩,
      ⟨"g-leader-0", ["CLUSTER", "FORGET", "id2"]⟩], []⟩
    ⟨[⟨"g-leader-0", ["cluster", "nodes"]⟩, ⟨"g-leader-0", ["CLUSTER", "FORGET", "id1"]⟩,
      ⟨"g-leader-0", ["CLUSTER", "FORGET", "id2"]⟩, ⟨"g-follower-0", ["cluster", "nodes"]⟩,
      ⟨"g-follower-0", ["CLUSTER", "FORGET", "id1"]⟩,
      ⟨"g-follower-0", ["CLUSTER", "FORGET", "id2"]⟩], []⟩
    (by decide) (by decide)).2

/-- Claim C10 (corrected) — counterexample against the claim as stated: the
claim says a table containing a row with fewer than 8 fields makes
`CheckRedisClusterState`'s indexing go out of range, but Go's `||` is
short-circuiting: on a 3-field row whose flag contains "fail", field 7 is
never indexed and the count is returned normally. -/
theorem C10_counterexample :
    (["id1", "10.0.0.1:6379@16379", "master,fail"] : List String).length = 3 ∧
    countUnhealthy [["id1", "10.0.0.1:6379@16379", "master,fail"]] = some 1 :=
  ⟨by decide, by decide⟩

/-- Claim C10 (corrected) — amended: every consumer of a parsed node table
indexes fixed field positions with no length check, so each is total when
every row is long enough (1 field for `getNodeIds`, 2 for
`checkRedisNodePresence`, 3 for the role-filtered `CheckRedisNodeCount`,
8 for `CheckRedisClusterState`); a too-short row panics when its field is
actually evaluated: any empty row for `getNodeIds`, a leading row shorter
than 2 for the presence check (a later match may return first), any row
shorter than 3 for the role count, a leading row shorter than 3 for the
unhealthy count — but a row with 3..7 fields whose flag contains "fail"
short-circuits past field 7 and is counted without panicking. -/
theorem C10_fixed_index_preconditions :
    (∀ table : List (List String), (∀ r ∈ table, 1 ≤ r.length) →
      (nodeIdsOfTable table).isSome) ∧
    (∀ table : List (List String), (∃ r ∈ table, r.length = 0) →
      nodeIdsOfTable table = none) ∧
    (∀ (table : List (List String)) (name : String), (∀ r ∈ table, 2 ≤ r.length) →
      (checkRedisNodePresence table name).isSome) ∧
    (∀ (r : List String) (rest : List (List String)) (name : String), r.length < 2 →
      checkRedisNodePresence (r :: rest) name = none) ∧
    (∀ (role : String) (table : List (List String)), (∀ r ∈ table, 3 ≤ r.length) →
      (countRole role table).isSome) ∧
    (∀ (role : String) (table : List (List String)), (∃ r ∈ table, r.length < 3) →
      countRole role table = none) ∧
    (∀ table : List (List String), (∀ r ∈ table, 8 ≤ r.length) →
      (countUnhealthy table).isSome) ∧
    (∀ (r : List String) (rest : List (List String)), r.length < 3 →
      countUnhealthy (r :: rest) = none) ∧
    (∀ (r : List String) (rest : List (List String)) (f2 : String),
      r.get? 2 = some f2 → strContains f2 "fail" = true →
      countUnhealthy (r :: rest) = (countUnhealthy rest).map (· + 1)) :=
  ⟨nodeIdsOfTable_isSome, nodeIdsOfTable_none,
   checkRedisNodePresence_isSome, checkRedisNodePresence_short_head,
   countRole_isSome, countRole_none,
   countUnhealthy_isSome, countUnhealthy_short_head,
   countUnhealthy_fail_short_circuit⟩

/-- Witness for C10: concrete tables exercising each conjunct — totality on
full rows and panics (`none`) on short rows for each consumer, plus the
short-circuited "fail" row. -/
theorem C10_fixed_index_preconditions_witness :
    (nodeIdsOfTable [["id1"], ["id2", "x"]]).isSome ∧
    nodeIdsOfTable [["id1"], []] = none ∧
    (checkRedisNodePresence [["id1", "10.0.0.1:6379@16379"]] "10.0.0.1").isSome ∧
    checkRedisNodePresence [["id1"]] "10.0.0.1" = none ∧
    (countRole "master" [["id1", "a", "master"]]).isSome ∧
    countRole "master" [["id1", "a"]] = none ∧
    (countUnhealthy [["a", "b", "c", "d", "e", "f", "g", "connected"]]).isSome ∧
    countUnhealthy [["a", "b"]] = none ∧
    countUnhealthy [["a", "b", "master,fail"]] = (countUnhealthy []).map (· + 1) := by
  refine ⟨?_, ?_, ?_, ?_, ?_, ?_, ?_, ?_, ?_⟩
  · exact C10_fixed_index_preconditions.1 _ (by decide)
  · exact C10_fixed_index_preconditions.2.1 _ ⟨[], by decide, rfl⟩
  · exact C10_fixed_index_preconditions.2.2.1 _ _ (by decide)
  · exact C10_fixed_index_preconditions.2.2.2.1 _ _ _ (by decide)
  · exact C10_fixed_index_preconditions.2.2.2.2.1 _ _ (by decide)
  · exact C10_fixed_index_preconditions.2.2.2.2.2.1 _ _ ⟨["id1", "a"], by decide, by decide⟩
  · exact C10_fixed_index_preconditions.2.2.2.2.2.2.1 _ (by decide)
  · exact C10_fixed_index_preconditions.2.2.2.2.2.2.2.1 _ _ (by decide)
  · exact C10_fixed_index_preconditions.2.2.2.2.2.2.2.2 _ _ "master,fail" (by decide) (by decide)
